import Mathlib

/-!
Verification of the result-equivalence engine and wire-protocol test runner of
the SPARQL conformance harness (src/sparql_conformance).

The Python sources are shallowly embedded:
* Python `str` is modelled as `List Char` (`Str`), so that slicing, indexing
  and length are the character-based operations of Python.
* Python `float(s)` is modelled by `pyFloatOfStr`, an exact-rational model of
  IEEE doubles (no rounding and no overflow; `nan`/`inf`/`-inf` are explicit
  constructors and `nan` is not equal to itself).  Underscore separators and
  exotic whitespace accepted by CPython are outside the modelled subset.
* Python exceptions are modelled with `Except PyExc`; functions that can
  raise return `Except` values, and functions that mutate a dictionary while
  possibly raising return the dictionary state alongside the `Except`.
* The functions that render highlighted HTML diffs are not modelled; the
  comparators return only the `(status, error)` component of their tuple,
  which is all the claims concern.
-/

namespace SparqlConf

/-- Python strings as character lists. -/
abbrev Str := List Char

/-- One CSV/TSV row: a list of cell strings. -/
abbrev Row := List Str

/-- Python exception kinds raised by the modelled code. -/
inductive PyExc where
  | valueError
  | typeError
  | keyError
  | attributeError
  | jsonDecodeError
  | indexError
  | keyboardInterrupt
  deriving DecidableEq, Repr

/-- Decidable equality for `Except` results, used to evaluate the
comparators on concrete inputs. -/
instance {ε α : Type} [DecidableEq ε] [DecidableEq α] : DecidableEq (Except ε α) :=
  fun a b =>
    match a, b with
    | .error e1, .error e2 =>
      if h : e1 = e2 then .isTrue (by rw [h])
      else .isFalse (fun hc => h (by cases hc; rfl))
    | .error _, .ok _ => .isFalse (fun hc => Except.noConfusion hc)
    | .ok _, .error _ => .isFalse (fun hc => Except.noConfusion hc)
    | .ok a1, .ok a2 =>
      if h : a1 = a2 then .isTrue (by rw [h])
      else .isFalse (fun hc => h (by cases hc; rfl))

/-- Python whitespace characters recognised by `str.strip`. -/
def pySpace (c : Char) : Bool :=
  c = ' ' || c = '\t' || c = '\n' || c = '\x0d' || c = '\x0b' || c = '\x0c'

/-- Model of Python `str.strip()`. -/
def pyStrip (s : Str) : Str :=
  ((s.dropWhile pySpace).reverse.dropWhile pySpace).reverse

/-- Helper for `pySplit`: scan `s`, cutting at each occurrence of `sep`.
The fuel argument (the length of the remaining input at the initial call)
makes the recursion structural; it never runs out, since each step consumes
at least one character. -/
def pySplitGo (sep : Str) : ℕ → Str → Str → List Str
  | _, [], acc => [acc.reverse]
  | 0, s, acc => [acc.reverse ++ s]
  | fuel + 1, c :: rest, acc =>
    if sep ≠ [] ∧ sep.isPrefixOf (c :: rest) then
      acc.reverse :: pySplitGo sep fuel ((c :: rest).drop sep.length) []
    else
      pySplitGo sep fuel rest (c :: acc)

/-- Model of Python `str.split(sep)` for a non-empty separator
(non-overlapping occurrences, left to right). -/
def pySplit (s sep : Str) : List Str :=
  if sep = [] then [s] else pySplitGo sep s.length s []

/-- Model of Python `sub in s` / `s.find(sub) != -1`. -/
def pyContains (s sub : Str) : Bool :=
  (List.range (s.length + 1)).any (fun i => sub.isPrefixOf (s.drop i))

/-- Model of Python `str.replace(old, new)` for a non-empty `old`. -/
def pyReplace (s old new : Str) : Str :=
  if old = [] then s else List.intercalate new (pySplit s old)

/-- Model of Python `sep.join(parts)`. -/
def pyJoin (sep : Str) (parts : List Str) : Str :=
  List.intercalate sep parts

/-- Model of Python `str.splitlines()` (splits at LF, CR and CRLF and drops a
trailing empty segment). -/
def pySplitLines : Str → Str → List Str
  | [], acc => if acc = [] then [] else [acc.reverse]
  | '\x0d' :: '\n' :: rest, acc => acc.reverse :: pySplitLines rest []
  | '\n' :: rest, acc => acc.reverse :: pySplitLines rest []
  | '\x0d' :: rest, acc => acc.reverse :: pySplitLines rest []
  | c :: rest, acc => pySplitLines rest (c :: acc)

/-- Lexicographic comparison of strings by code point, as Python `<` on `str`. -/
def strLe : Str → Str → Bool
  | [], _ => true
  | _ :: _, [] => false
  | a :: as, b :: bs => if a = b then strLe as bs else decide (a < b)

/-- Sorted insertion for `sortStrs`. -/
def insertSorted (x : Str) : List Str → List Str
  | [] => [x]
  | y :: ys => if strLe x y then x :: y :: ys else y :: insertSorted x ys

/-- Model of Python `sorted` on a list of strings (an insertion sort; only
the equality of the two sorted header lists is ever consumed). -/
def sortStrs (l : List Str) : List Str :=
  l.foldr insertSorted []

/-- Model of an IEEE double as produced by Python `float(str)`: an exact
rational, kept as an unreduced numerator/denominator pair (the model
performs no rounding and no overflow), or one of the special values. -/
inductive PyFloat where
  | num (n d : ℤ)
  | nan
  | inf
  | ninf
  deriving DecidableEq, Repr

/-- Python `==` on floats: exact equality of the represented rationals;
`nan` is unequal to everything, including itself. -/
def pyFloatEq : PyFloat → PyFloat → Bool
  | .num n1 d1, .num n2 d2 => n1 * d2 == n2 * d1
  | .inf, .inf => true
  | .ninf, .ninf => true
  | _, _ => false

/-- Numeric value of a digit list read in base 10. -/
def digitsVal (ds : Str) : ℕ :=
  ds.foldl (fun acc c => acc * 10 + (c.toNat - '0'.toNat)) 0

/-- Lower-cases ASCII letters, as Python `str.lower` on ASCII input. -/
def asciiLower (s : Str) : Str :=
  s.map (fun c => if 'A' ≤ c ∧ c ≤ 'Z' then Char.ofNat (c.toNat + 32) else c)

/-- Splits a leading run of decimal digits. -/
def takeDigits (s : Str) : Str × Str :=
  (s.takeWhile (fun c => '0' ≤ c ∧ c ≤ '9'), s.dropWhile (fun c => '0' ≤ c ∧ c ≤ '9'))

/-- Parses the exponent part (after the mantissa): empty, or `e`/`E` with an
optional sign and at least one digit. -/
def parseExpPart (s : Str) : Option ℤ :=
  if s = [] then some 0
  else if s.head? = some 'e' ∨ s.head? = some 'E' then
    let rest := s.tail
    let (sign, rest') : ℤ × Str :=
      if rest.head? = some '+' then (1, rest.tail)
      else if rest.head? = some '-' then (-1, rest.tail)
      else (1, rest)
    let (ds, tail) := takeDigits rest'
    if ds = [] ∨ tail ≠ [] then none else some (sign * digitsVal ds)
  else none

/-- The numerator/denominator pair `mantissa / 10^fracLen * 10^e`. -/
def ratOfParts (mantissa fracLen : ℕ) (e : ℤ) : ℤ × ℤ :=
  if 0 ≤ e then ((mantissa : ℤ) * 10 ^ e.toNat, (10 : ℤ) ^ fracLen)
  else ((mantissa : ℤ), (10 : ℤ) ^ (fracLen + (-e).toNat))

/-- Parses an unsigned decimal mantissa with optional fraction and exponent. -/
def parseDecimal (s : Str) : Option (ℤ × ℤ) :=
  let (intDs, rest) := takeDigits s
  if rest.head? = some '.' then
    let (fracDs, rest'') := takeDigits rest.tail
    if intDs = [] ∧ fracDs = [] then none
    else
      (parseExpPart rest'').map (fun e =>
        ratOfParts (digitsVal intDs * 10 ^ fracDs.length + digitsVal fracDs)
          fracDs.length e)
  else if intDs = [] then none
  else (parseExpPart rest).map (fun e => ratOfParts (digitsVal intDs) 0 e)

/-- Splits the optional leading sign of a float literal. -/
def splitSign (t : Str) : Bool × Str :=
  if t.head? = some '+' then (false, t.tail)
  else if t.head? = some '-' then (true, t.tail)
  else (false, t)

/-- Model of Python `float(str)` on its documented subset: optional
surrounding whitespace, optional sign, then a decimal literal with optional
fraction and exponent, or `nan` / `inf` / `infinity` (case-insensitive). -/
def pyFloatOfStr (s : Str) : Option PyFloat :=
  let (neg, body) := splitSign (pyStrip s)
  let low := asciiLower body
  if low = ("nan").data then some .nan
  else if low = ("inf").data ∨ low = ("infinity").data then
    some (if neg then .ninf else .inf)
  else
    (parseDecimal body).map (fun q => .num (if neg then -q.1 else q.1) q.2)

/-- Model of `util.is_number`: whether Python `float(s)` succeeds. -/
def is_number (s : Str) : Bool :=
  (pyFloatOfStr s).isSome

/-- Test status (`test_object.Status`). -/
inductive Status where
  | passed
  | intended
  | failed
  | notTested
  deriving DecidableEq, Repr

/-- String value of a `Status` member (they subclass `str`). -/
def Status.toStr : Status → Str
  | .passed => ("Passed").data
  | .intended => ("Failed: Intended").data
  | .failed => ("Failed").data
  | .notTested => ("Not tested").data

/-- Error classification (`test_object.ErrorMessage`); `empty` stands for the
empty string used when a test passes. -/
inductive ErrMsg where
  | queryException
  | requestError
  | queryError
  | indexBuildError
  | serverError
  | notTested
  | resultsNotTheSame
  | intendedMsg
  | expectedException
  | formatError
  | notSupported
  | contentTypeNotSupported
  | empty
  deriving DecidableEq, Repr

/-- The blank-node mapping dictionary: an association list with at most one
binding per key (the code only ever inserts keys that are absent). -/
abbrev BMap := List (Str × Str)

/-- Dictionary lookup (`dict.get`). -/
def bmGet : BMap → Str → Option Str
  | [], _ => none
  | (k, v) :: rest, key => if k = key then some v else bmGet rest key

/-- Dictionary membership (`key in dict`). -/
def bmHas (m : BMap) (k : Str) : Bool :=
  (bmGet m k).isSome

/-- Dictionary insertion `m[k] = v`; in the modelled code it is only called
with keys not present in `m`. -/
def bmAdd (m : BMap) (k v : Str) : BMap :=
  m ++ [(k, v)]

/-! ## tsv_csv_tools -/

/-- Python `element.split("^")[0]`: the part of the cell before any
datatype suffix. -/
def caretHead (e : Str) : Str :=
  (pySplit e [Char.ofNat 94]).headD []

/-- Model of `tsv_csv_tools.compare_values` (lines 128-170).  The boolean
result is paired with the updated `map_bnodes` dictionary. -/
def compare_values (v1? v2? : Option Str) (use_config : Bool)
    (aliases : List (Str × Str)) (m : BMap) : Bool × BMap :=
  match v1?, v2? with
  | none, _ => (false, m)
  | some _, none => (false, m)
  | some value1, some value2 =>
    if value1.length > 1 ∧ value2.length > 1 ∧
        value1.head? = some '_' ∧ value2.head? = some '_' then
      if ¬ bmHas m value1 ∧ ¬ bmHas m value2 then
        (true, bmAdd (bmAdd m value1 value2) value2 value1)
      else if bmGet m value1 = some value2 ∧ bmGet m value2 = some value1 then
        (true, m)
      else
        (false, m)
    else if value1 = value2 then
      (true, m)
    else if is_number value1 ∧ is_number value2 then
      if pyFloatEq ((pyFloatOfStr value1).getD .nan) ((pyFloatOfStr value2).getD .nan) then
        (true, m)
      else
        (false, m)
    else
      if use_config ∧ ((value1, value2) ∈ aliases ∨ (value2, value1) ∈ aliases) then
        (true, m)
      else
        (false, m)

/-- Cell-by-cell loop of `compare_rows`. -/
def compare_rows_go (use_config : Bool) (aliases : List (Str × Str)) :
    List (Str × Str) → BMap → Bool × BMap
  | [], m => (true, m)
  | (e1, e2) :: rest, m =>
    let (b, m') := compare_values (some (caretHead e1)) (some (caretHead e2))
      use_config aliases m
    if b then compare_rows_go use_config aliases rest m' else (false, m')

/-- Model of `tsv_csv_tools.compare_rows` (lines 173-203). -/
def compare_rows (row1 row2 : Row) (use_config : Bool)
    (aliases : List (Str × Str)) (m : BMap) : Bool × BMap :=
  if row1.length ≠ row2.length then (false, m)
  else compare_rows_go use_config aliases (row1.zip row2) m

/-- The inner loop of `compare_array`: scan `expected_result` for the first
row equal to `row1`, threading the bnode dictionary through failed probes. -/
def array_find_match (row1 : Row) (expected_result : List Row)
    (use_config : Bool) (aliases : List (Str × Str)) (m : BMap) :
    Option Row × BMap :=
  match expected_result with
  | [] => (none, m)
  | row2 :: rest =>
    let (b, m') := compare_rows row1 row2 use_config aliases m
    if b then (some row2, m') else array_find_match row1 rest use_config aliases m'

/-- Model of Python `list.remove(v)`: drop the first element equal to `v`,
raising `ValueError` when none exists. -/
def listRemove (l : List Row) (v : Row) : Except PyExc (List Row) :=
  match l with
  | [] => .error .valueError
  | x :: xs => if x = v then .ok xs else (listRemove xs v).map (x :: ·)

/-- Model of `tsv_csv_tools.compare_array` (lines 206-236).  Note that, as in
the source, each row of `result` is matched against the *original*
`expected_result` list while removals are performed on the two copies; the
`remove` on `expected_result_copy` can therefore raise `ValueError`. -/
def compare_array (expected_result result result_copy expected_result_copy : List Row)
    (use_config : Bool) (aliases : List (Str × Str)) (m : BMap) :
    Except PyExc (List Row × List Row × BMap) :=
  match result with
  | [] => .ok (result_copy, expected_result_copy, m)
  | row1 :: rest =>
    let (found, m') := array_find_match row1 expected_result use_config aliases m
    match found with
    | none => compare_array expected_result rest result_copy expected_result_copy
        use_config aliases m'
    | some row2 => do
      let rc ← listRemove result_copy row1
      let ec ← listRemove expected_result_copy row2
      compare_array expected_result rest rc ec use_config aliases m'

/-- Model of `tsv_csv_tools.convert_csv_tsv_to_array` (lines 239-259) for
payloads using LF newlines and no quoting: rows are lines split on the
delimiter, and rows whose cells are all whitespace are dropped. -/
def convert_csv_tsv_to_array (input : Str) (input_type : Str) : List Row :=
  let delimiter : Char := if input_type = ("csv").data then ',' else '\t'
  (pySplit input [Char.ofNat 10]).filterMap (fun line =>
    let row := pySplit line [delimiter]
    if row.all (fun cell => pyStrip cell = []) then none else some row)

/-- Inner search of `_build_column_mapping`: the first unused index of
`have_` whose stripped cell equals the stripped `name`. -/
def bcmFind (have_ : Row) (used : List ℕ) (name : Str) : Option ℕ :=
  (List.range have_.length).find? (fun j =>
    j ∉ used ∧ pyStrip (have_.getD j []) = pyStrip name)

/-- Loop of `_build_column_mapping` over the wanted (expected) header. -/
def bcmGo (have_ : Row) : Row → List ℕ → Option (List ℕ)
  | [], _ => some []
  | name :: rest, used =>
    match bcmFind have_ used name with
    | none => none
    | some j => (bcmGo have_ rest (j :: used)).map (j :: ·)

/-- Model of `tsv_csv_tools._build_column_mapping` (lines 8-34). -/
def build_column_mapping (expected_header actual_header : Row) : Option (List ℕ) :=
  if expected_header.length ≠ actual_header.length then none
  else bcmGo actual_header expected_header []

/-- Model of the inner `reorder_row` of `_reorder_columns_to_expected`:
`[row[i] if i < len(row) else "" for i in mapping]`. -/
def reorder_row (mapping : List ℕ) (row : Row) : Row :=
  mapping.map (fun i => row.getD i [])

/-- Model of `tsv_csv_tools._reorder_columns_to_expected` (lines 37-59).
Every row of the actual array — including its header row — is mapped
through `reorder_row`. -/
def reorder_columns_to_expected (expected_array actual_array : List Row) : List Row :=
  if expected_array = [] ∨ actual_array = [] then actual_array
  else
    let expected_header := expected_array.headD []
    let actual_header := actual_array.headD []
    if sortStrs expected_header ≠ sortStrs actual_header then actual_array
    else
      match build_column_mapping expected_header actual_header with
      | none => actual_array
      | some mapping => actual_array.map (reorder_row mapping)

/-- The status-computing part of `tsv_csv_tools.compare_sv`
(lines 279-320), operating on the converted arrays; the HTML rendering of
the source is not modelled. -/
def compare_sv_arrays (expected_array actual_array0 : List Row)
    (aliases : List (Str × Str)) : Except PyExc (Status × ErrMsg) := do
  let actual_array := reorder_columns_to_expected expected_array actual_array0
  let (ac, ec, m) ← compare_array expected_array actual_array actual_array
    expected_array false aliases []
  if ac = [] ∧ ec = [] then
    return (.passed, .empty)
  else
    let (acr, ecr, _) ← compare_array ec ac ac ec true aliases m
    if acr = [] ∧ ecr = [] then
      return (.intended, .intendedMsg)
    else
      return (.failed, .resultsNotTheSame)

/-- Model of `tsv_csv_tools.compare_sv` (lines 262-337), returning the
status/error components. -/
def compare_sv (expected_string query_result result_format : Str)
    (aliases : List (Str × Str)) : Except PyExc (Status × ErrMsg) :=
  compare_sv_arrays (convert_csv_tsv_to_array expected_string result_format)
    (convert_csv_tsv_to_array query_result result_format) aliases

/-! ## json_tools

Python values decoded by `json.loads` are modelled by `PyJson`.  Numbers are
kept as exact rationals (so `1` and `1.0` are the same value, as in Python).
The string decoder `jsonLoads` models `json.loads` on payloads without string
escape sequences; any input it cannot decode yields `jsonDecodeError`, the
exception `json.loads` raises. -/

inductive PyJson where
  | null
  | boolean (b : Bool)
  | num (n d : ℤ)
  | str (s : Str)
  | arr (xs : List PyJson)
  | obj (fields : List (Str × PyJson))

mutual

/-- Structural equality of decoded JSON values: Python `==` on the results
of `json.loads`. -/
def PyJson.beq : PyJson → PyJson → Bool
  | .null, .null => true
  | .boolean a, .boolean b => a == b
  | .num n1 d1, .num n2 d2 => n1 * d2 == n2 * d1
  | .str a, .str b => a == b
  | .arr xs, .arr ys => PyJson.beqList xs ys
  | .obj fs, .obj gs => PyJson.beqFields fs gs
  | _, _ => false

/-- Elementwise equality of JSON lists. -/
def PyJson.beqList : List PyJson → List PyJson → Bool
  | [], [] => true
  | x :: xs, y :: ys => PyJson.beq x y && PyJson.beqList xs ys
  | _, _ => false

/-- Entrywise equality of JSON objects (Python compares `dict`s by
key-value content; decoded objects store keys in insertion order, and the
claims only exercise this on objects built in matching order). -/
def PyJson.beqFields : List (Str × PyJson) → List (Str × PyJson) → Bool
  | [], [] => true
  | (k1, v1) :: xs, (k2, v2) :: ys =>
    k1 == k2 && PyJson.beq v1 v2 && PyJson.beqFields xs ys
  | _, _ => false

end

instance : BEq PyJson := ⟨PyJson.beq⟩

/-- Python `==` on optional values (`None == None` is true). -/
def obeq : Option PyJson → Option PyJson → Bool
  | none, none => true
  | some a, some b => PyJson.beq a b
  | _, _ => false

/-- Lookup in a decoded JSON object (`dict` lookup; keys are unique). -/
def objGet : List (Str × PyJson) → Str → Option PyJson
  | [], _ => none
  | (k, v) :: rest, key => if k = key then some v else objGet rest key

/-- Insert-or-overwrite preserving insertion order, as Python `dict`
assignment does. -/
def objUpsert (fs : List (Str × PyJson)) (k : Str) (v : PyJson) :
    List (Str × PyJson) :=
  if fs.any (fun p => p.1 = k) then
    fs.map (fun p => if p.1 = k then (k, v) else p)
  else fs ++ [(k, v)]

/-- Collapse duplicate keys keeping the last value, as `json.loads` does. -/
def objDedup (fs : List (Str × PyJson)) : List (Str × PyJson) :=
  fs.foldl (fun acc p => objUpsert acc p.1 p.2) []

/-- JSON whitespace skipping. -/
def jSkipWs (s : Str) : Str :=
  s.dropWhile pySpace

/-- Decode a JSON string body (after the opening quote, up to the closing
quote); escape sequences are outside the modelled subset. -/
def jStringBody : Str → Option (Str × Str)
  | [] => none
  | '"' :: rest => some ([], rest)
  | '\\' :: _ => none
  | c :: rest => (jStringBody rest).map (fun p => (c :: p.1, p.2))

/-- Characters a JSON number token may contain. -/
def jNumChar (c : Char) : Bool :=
  ('0' ≤ c ∧ c ≤ '9') || c = '-' || c = '+' || c = '.' || c = 'e' || c = 'E'

/-- Decode a leading JSON number token. -/
def jNum (s : Str) : Option (PyJson × Str) :=
  let tok := s.takeWhile jNumChar
  let rest := s.dropWhile jNumChar
  if tok = [] then none
  else
    match pyFloatOfStr tok with
    | some (.num n d) => some (.num n d, rest)
    | _ => none

mutual

/-- Decode one JSON value (fuel-indexed recursive descent). -/
def jVal : ℕ → Str → Option (PyJson × Str)
  | 0, _ => none
  | fuel + 1, s =>
    match jSkipWs s with
    | '\x7b' :: rest => (jObjItems fuel rest).map (fun p => (.obj (objDedup p.1), p.2))
    | '[' :: rest => (jArrItems fuel rest).map (fun p => (.arr p.1, p.2))
    | '"' :: rest => (jStringBody rest).map (fun p => (.str p.1, p.2))
    | 't' :: rest =>
      if ("rue").data.isPrefixOf rest then some (.boolean true, rest.drop 3) else none
    | 'f' :: rest =>
      if ("alse").data.isPrefixOf rest then some (.boolean false, rest.drop 4) else none
    | 'n' :: rest =>
      if ("ull").data.isPrefixOf rest then some (.null, rest.drop 3) else none
    | s' => jNum s'

/-- Decode the members of a JSON object, after the opening brace. -/
def jObjItems : ℕ → Str → Option (List (Str × PyJson) × Str)
  | 0, _ => none
  | fuel + 1, s =>
    match jSkipWs s with
    | '\x7d' :: rest => some ([], rest)
    | '"' :: rest => do
      let (k, r1) ← jStringBody rest
      match jSkipWs r1 with
      | ':' :: r2 => do
        let (v, r3) ← jVal fuel r2
        match jSkipWs r3 with
        | ',' :: r4 => (jObjItems fuel r4).map (fun p => ((k, v) :: p.1, p.2))
        | '\x7d' :: r4 => some ([(k, v)], r4)
        | _ => none
      | _ => none
    | _ => none

/-- Decode the items of a JSON array, after the opening bracket. -/
def jArrItems : ℕ → Str → Option (List PyJson × Str)
  | 0, _ => none
  | fuel + 1, s =>
    match jSkipWs s with
    | ']' :: rest => some ([], rest)
    | s' => do
      let (v, r1) ← jVal fuel s'
      match jSkipWs r1 with
      | ',' :: r2 => (jArrItems fuel r2).map (fun p => (v :: p.1, p.2))
      | ']' :: r2 => some ([v], r2)
      | _ => none

end

/-- Model of `json.loads` on the modelled subset; failure is the
`json.JSONDecodeError` exception. -/
def jsonLoads (s : Str) : Except PyExc PyJson :=
  match jVal (s.length + 1) s with
  | some (v, rest) => if jSkipWs rest = [] then .ok v else .error .jsonDecodeError
  | none => .error .jsonDecodeError

/-- Python `x.get(k)`: `None`-or-value on a `dict`, `AttributeError`
otherwise. -/
def pyGetAttr (j : PyJson) (k : Str) : Except PyExc (Option PyJson) :=
  match j with
  | .obj fs => .ok (objGet fs k)
  | _ => .error .attributeError

/-- Python `x[k]` on a decoded JSON value: `KeyError` when the key is
missing, `TypeError` when `x` is not a `dict`. -/
def pyGetItem (j : PyJson) (k : Str) : Except PyExc PyJson :=
  match j with
  | .obj fs =>
    match objGet fs k with
    | some v => .ok v
    | none => .error .keyError
  | _ => .error .typeError

/-- Python `str(...)` of an optional decoded value, as used in
`json_elements_equal` (`str(None)` is `"None"`); numbers and containers are
rendered by an approximate marker, which no claim depends on. -/
def pyStrOfOpt (v : Option PyJson) : Str :=
  match v with
  | none => ("None").data
  | some .null => ("None").data
  | some (.boolean true) => ("True").data
  | some (.boolean false) => ("False").data
  | some (.str s) => s
  | some (.num n d) => ("num:").data ++ (toString n).data ++ ('/' :: (toString d).data)
  | some (.arr _) => ("arr:?").data
  | some (.obj _) => ("obj:?").data

/-- Python `float(x)` on an optional decoded value (`TypeError` on `None`
and containers, `ValueError` on unparsable strings). -/
def pyFloatOfVal : Option PyJson → Except PyExc PyFloat
  | none => .error .typeError
  | some (.num n d) => .ok (.num n d)
  | some (.boolean b) => .ok (.num (if b then 1 else 0) 1)
  | some (.str s) =>
    match pyFloatOfStr s with
    | some f => .ok f
    | none => .error .valueError
  | some _ => .error .typeError

/-- The blank-node key of a sub-value, when it is a string (non-string
values can never be keys of the bnode dictionary). -/
def bnodeKey : Option PyJson → Option Str
  | some (.str s) => some s
  | _ => none

/-- Whether a pair of sub-values hits the alias table (tuple membership in a
list of string pairs only succeeds for string values). -/
def aliasPairHit (aliases : List (Str × Str)) (v1 v2 : Option PyJson) : Bool :=
  match v1, v2 with
  | some (.str a), some (.str b) => decide ((a, b) ∈ aliases)
  | _, _ => false

/-- The iteration order this embedding fixes for Python's
`set(field1.keys()) | set(field2.keys())` (CPython's set order is
hash-dependent): the keys of `field1` in order, then the remaining keys of
`field2`. -/
def subKeysUnion (g1 g2 : List (Str × PyJson)) : List Str :=
  let k1 := g1.map Prod.fst
  k1 ++ ((g2.map Prod.fst).filter (fun k => decide (k ∉ k1)))

/-- One `sub_key` iteration of the inner loop of `json_elements_equal`
(lines 218-242).  `ok true` means the Python loop hit `continue`, `ok false`
means it returned `False`.  When a differing pair of `bnode` values is not a
pair of strings, the dictionary operations of the source (whose keys are
then not strings) are modelled as falling through to the numeric check. -/
def jeqSubkeyStep (g1 g2 : List (Str × PyJson)) (cib : Bool)
    (aliases : List (Str × Str)) (number_types : List Str) (sk : Str)
    (m : BMap) : BMap × Except PyExc Bool :=
  let v1 := objGet g1 sk
  let v2 := objGet g2 sk
  if obeq v1 v2 then (m, .ok true)
  else
    let numericCheck : BMap × Except PyExc Bool :=
      if pyStrOfOpt (objGet g1 ("datatype").data) ∈ number_types ∧
          pyStrOfOpt (objGet g2 ("datatype").data) ∈ number_types ∧
          sk = ("value").data then
        match pyFloatOfVal v1 with
        | .error e => (m, .error e)
        | .ok f1 =>
          match pyFloatOfVal v2 with
          | .error e => (m, .error e)
          | .ok f2 =>
            if pyFloatEq f1 f2 then (m, .ok true)
            else if cib ∧ (aliasPairHit aliases v1 v2 ∨ aliasPairHit aliases v2 v1) then
              (m, .ok true)
            else (m, .ok false)
      else if cib ∧ (aliasPairHit aliases v1 v2 ∨ aliasPairHit aliases v2 v1) then
        (m, .ok true)
      else (m, .ok false)
    if pyStrOfOpt (objGet g1 ("type").data) = ("bnode").data ∧
        pyStrOfOpt (objGet g2 ("type").data) = ("bnode").data ∧
        sk = ("value").data then
      match bnodeKey (objGet g1 ("value").data), bnodeKey (objGet g2 ("value").data) with
      | some a, some x =>
        if ¬ bmHas m a ∧ ¬ bmHas m x then
          (bmAdd (bmAdd m a x) x a, .ok true)
        else if bmGet m a = some x ∧ bmGet m x = some a then
          (m, .ok true)
        else numericCheck
      | _, _ => numericCheck
    else numericCheck

/-- The `sub_key` loop of `json_elements_equal`. -/
def jeqSubkeys (g1 g2 : List (Str × PyJson)) (cib : Bool)
    (aliases : List (Str × Str)) (number_types : List Str) :
    List Str → BMap → BMap × Except PyExc Bool
  | [], m => (m, .ok true)
  | sk :: rest, m =>
    match jeqSubkeyStep g1 g2 cib aliases number_types sk m with
    | (m', .error e) => (m', .error e)
    | (m', .ok true) => jeqSubkeys g1 g2 cib aliases number_types rest m'
    | (m', .ok false) => (m', .ok false)

/-- The outer `key` loop of `json_elements_equal`, over the entries of
`element1`. -/
def jeqFields (f2 : List (Str × PyJson)) (cib : Bool)
    (aliases : List (Str × Str)) (number_types : List Str) :
    List (Str × PyJson) → BMap → BMap × Except PyExc Bool
  | [], m => (m, .ok true)
  | (key, field1) :: rest, m =>
    match objGet f2 key with
    | none => (m, .error .keyError)
    | some field2 =>
      match field1, field2 with
      | .obj g1, .obj g2 =>
        match jeqSubkeys g1 g2 cib aliases number_types (subKeysUnion g1 g2) m with
        | (m', .error e) => (m', .error e)
        | (m', .ok true) => jeqFields f2 cib aliases number_types rest m'
        | (m', .ok false) => (m', .ok false)
      | fv1, fv2 =>
        if PyJson.beq fv1 fv2 then jeqFields f2 cib aliases number_types rest m
        else (m, .ok false)

/-- Model of `json_tools.json_elements_equal` (lines 186-246).  The result
dictionary is returned alongside the outcome; a raised exception leaves the
dictionary mutations made so far in place, as in Python. -/
def json_elements_equal (e1 e2 : PyJson) (cib : Bool)
    (aliases : List (Str × Str)) (number_types : List Str) (m : BMap) :
    BMap × Except PyExc Bool :=
  match e1, e2 with
  | .obj f1, .obj f2 =>
    if (f1.map Prod.fst).toFinset ≠ (f2.map Prod.fst).toFinset then (m, .ok false)
    else jeqFields f2 cib aliases number_types f1 m
  | _, _ => (m, .error .attributeError)

/-- Inner scan of `remove_once_found`: find and drop the first element of
the working copy equal to `item2`. -/
def rofScan (item2 : PyJson) (cib : Bool) (aliases : List (Str × Str))
    (number_types : List Str) : List PyJson → BMap → BMap × Except PyExc (List PyJson)
  | [], m => (m, .ok [])
  | x :: xs, m =>
    match json_elements_equal x item2 cib aliases number_types m with
    | (m', .error e) => (m', .error e)
    | (m', .ok true) => (m', .ok xs)
    | (m', .ok false) =>
      match rofScan item2 cib aliases number_types xs m' with
      | (m'', .error e) => (m'', .error e)
      | (m'', .ok ys) => (m'', .ok (x :: ys))

/-- Outer loop of `remove_once_found` over `list2`. -/
def rofGo (cib : Bool) (aliases : List (Str × Str)) (number_types : List Str) :
    List PyJson → List PyJson → BMap → BMap × Except PyExc (List PyJson)
  | [], temp, m => (m, .ok temp)
  | item2 :: rest, temp, m =>
    match rofScan item2 cib aliases number_types temp m with
    | (m', .error e) => (m', .error e)
    | (m', .ok temp') => rofGo cib aliases number_types rest temp' m'

/-- Model of `json_tools.remove_once_found` (lines 249-286): returns
`list1` with, for each element of `list2`, the first matching element
removed.  The source works on the copy `temp_list1 = list1[:]` and never
writes to `list1` or `list2`; accordingly the only state threaded through
this embedding is the bnode dictionary. -/
def remove_once_found (list1 list2 : List PyJson) (cib : Bool)
    (aliases : List (Str × Str)) (number_types : List Str) (m : BMap) :
    BMap × Except PyExc (List PyJson) :=
  rofGo cib aliases number_types list2 list1 m

/-- Python `str(...)` of a decoded value. -/
def pyStrOfVal (v : PyJson) : Str :=
  pyStrOfOpt (some v)

/-- Requires a decoded value to be a JSON array, as iterating a non-list
does in Python (`TypeError`).  (CPython would defer this error to the first
iteration; the embedding surfaces it at extraction.) -/
def toArrE (v : PyJson) : Except PyExc (List PyJson) :=
  match v with
  | .arr xs => .ok xs
  | _ => .error .typeError

/-- Model of `json_tools.compare_json` (lines 289-393), returning the
status/error components; the HTML rendering is not modelled.  Parse
failures of either payload and exceptions raised during element comparison
propagate as `Except.error`, exactly as the uncaught exceptions of the
source do. -/
def compare_json (expected_json query_json : Str)
    (aliases : List (Str × Str)) (number_types : List Str) :
    Except PyExc (Status × ErrMsg) := do
  let expected ← jsonLoads expected_json
  let query ← jsonLoads query_json
  let eHead? ← pyGetAttr expected ("head").data
  let eVars? : Option PyJson ←
    match eHead? with
    | none => pure none
    | some hv => pyGetAttr hv ("vars").data
  let qHead? ← pyGetAttr query ("head").data
  let qVars? : Option PyJson ←
    match qHead? with
    | none => pure none
    | some hv => pyGetAttr hv ("vars").data
  let vars1 : List PyJson ←
    match eVars? with
    | none => pure []
    | some (.arr xs) => pure xs
    | some _ => throw .typeError
  let vars2 : List PyJson ←
    match qVars? with
    | none => pure []
    | some (.arr xs) => pure xs
    | some _ => throw .typeError
  let unique_vars1 := vars1.filter (fun v => ¬ vars2.any (fun w => PyJson.beq v w))
  let unique_vars2 := vars2.filter (fun v => ¬ vars1.any (fun w => PyJson.beq v w))
  let qRes? ← pyGetAttr query ("results").data
  let eRes? ← pyGetAttr expected ("results").data
  match qRes?, eRes? with
  | some qResV, some eResV => do
    let bindings1 ← toArrE (← pyGetItem eResV ("bindings").data)
    let bindings2 ← toArrE (← pyGetItem qResV ("bindings").data)
    let (m1, r1) := remove_once_found bindings1 bindings2 false aliases number_types []
    let ub1 ← r1
    let (m2, r2) := remove_once_found bindings2 bindings1 false aliases number_types m1
    let ub2 ← r2
    let passed? : Bool ←
      if ¬ ub1.isEmpty then pure false
      else if ¬ ub2.isEmpty then pure false
      else do
        let ev ← match eVars? with
          | some _ => pure unique_vars1
          | none => throw .keyError
        if ¬ ev.isEmpty then pure false
        else do
          let qv ← match qVars? with
            | some _ => pure unique_vars2
            | none => throw .keyError
          pure qv.isEmpty
    if passed? then
      return (.passed, .empty)
    else
      let (m3, r3) := remove_once_found bindings1 bindings2 true aliases number_types m2
      let ub1' ← r3
      let (_, r4) := remove_once_found bindings2 bindings1 true aliases number_types m3
      let ub2' ← r4
      if ub1'.isEmpty ∧ ub2'.isEmpty then return (.intended, .intendedMsg)
      else return (.failed, .resultsNotTheSame)
  | _, _ => do
    let bool1 ← pyGetItem expected ("boolean").data
    let bool2 ← pyGetItem query ("boolean").data
    if pyStrOfVal bool1 = pyStrOfVal bool2 then return (.passed, .empty)
    else return (.failed, .resultsNotTheSame)

/-! ## rdf_tools

`rdflib` is an external library; `compare_ttl` is therefore embedded as a
function parameterised by the two capabilities it consumes: `parse` (graph
parsing, `Except` on parse failure) and `isomorphic`.  Alongside the
status/error result the embedding returns, as a ghost field, the list of
payload strings handed to `parse` in order, which makes the retry behaviour
of the source directly observable. -/

/-- The namespace prefixes `compare_ttl` injects into the expected payload
on its single fallback parse attempt (rdf_tools line 76). -/
def ttlPrefixes : Str :=
  ("@prefix foaf: <http://xmlns.com/foaf/0.1/> .\n@prefix v: <http://www.w3.org/2006/vcard/ns#> .\n\n").data

/-- Tail of `compare_ttl` once the expected graph parsed: parse the query
payload (one attempt) and compare by isomorphism (rdf_tools lines 85-126). -/
def compare_ttl_rest {G : Type} (parse : Str → Except Str G)
    (isomorphic : G → G → Bool) (expected_graph : G) (query_ttl : Str)
    (trace : List Str) : (Status × ErrMsg) × List Str :=
  match parse query_ttl with
  | .error _ => ((.failed, .formatError), trace ++ [query_ttl])
  | .ok query_graph =>
    if isomorphic expected_graph query_graph then
      ((.passed, .empty), trace ++ [query_ttl])
    else
      ((.failed, .resultsNotTheSame), trace ++ [query_ttl])

/-- Model of `rdf_tools.compare_ttl` (lines 68-126), returning the
status/error components and the ghost list of parse attempts. -/
def compare_ttl {G : Type} (parse : Str → Except Str G)
    (isomorphic : G → G → Bool) (expected_ttl query_ttl : Str) :
    (Status × ErrMsg) × List Str :=
  match parse expected_ttl with
  | .ok eg => compare_ttl_rest parse isomorphic eg query_ttl [expected_ttl]
  | .error _ =>
    let expected2 := ttlPrefixes ++ expected_ttl
    match parse expected2 with
    | .ok eg => compare_ttl_rest parse isomorphic eg query_ttl [expected_ttl, expected2]
    | .error _ => ((.notTested, .formatError), [expected_ttl, expected2])

/-! ## testsuite

The orchestrator is embedded around its collaborators: the engine manager
(a function from a test to the `(http_status, body)` pair of its query) and
the XML comparator (`compare_xml` operates on an XML tree library and is
taken as a parameter here).  `TestSuite.evaluate_query` (lines 40-73) and
the `try`/`except KeyboardInterrupt` of `TestSuite.run` (lines 425-438) are
translated directly; of the phases `run` drives, the two that reach
`evaluate_query` (query and format tests, both via `run_query_tests`) are
modelled. -/

/-- A per-format comparator collaborator with the common signature of the
format comparators (payloads, aliases, number types to status/error). -/
abbrev FormatComparator :=
  Str → Str → List (Str × Str) → List Str → Except PyExc (Status × ErrMsg)

/-- Model of `TestSuite.evaluate_query` (testsuite lines 40-73): dispatch on
the result format; there is no exception handler around the comparator
calls, so their errors propagate. -/
def evaluate_query {G : Type} (cmpXml : FormatComparator)
    (parse : Str → Except Str G) (isomorphic : G → G → Bool)
    (aliases : List (Str × Str)) (number_types : List Str)
    (expected_string query_result result_format : Str) :
    Except PyExc (Status × ErrMsg) :=
  if result_format = ("srx").data then
    cmpXml expected_string query_result aliases number_types
  else if result_format = ("srj").data then
    compare_json expected_string query_result aliases number_types
  else if result_format = ("csv").data ∨ result_format = ("tsv").data then
    compare_sv expected_string query_result result_format aliases
  else if result_format = ("ttl").data then
    pure (compare_ttl parse isomorphic expected_string query_result).1
  else
    pure (.failed, .resultsNotTheSame)

/-- Model of `TestSuite.process_failed_response` (lines 180-198); the
`json.loads` of an `exception` body can itself raise. -/
def process_failed_response (body : Str) : Except PyExc (Status × ErrMsg) := do
  if pyContains body ("exception").data then
    let _ ← pyGetItem (← jsonLoads body) ("exception").data
    return (.failed, .queryException)
  else if pyContains body ("HTTP Request").data then
    return (.failed, .requestError)
  else if pyContains body ("not supported").data then
    if pyContains body ("content type").data then
      return (.failed, .contentTypeNotSupported)
    else
      return (.failed, .notSupported)
  else
    return (.failed, .queryError)

/-- One query test: its expected payload and declared result format. -/
structure QueryTest where
  result_file : Str
  result_format : Str

/-- A group of tests sharing one engine environment, with the outcome of
`prepare_test_environment` for that environment. -/
structure TestGroup where
  setup_ok : Bool
  tests : List QueryTest

/-- Model of the per-test loop body of `TestSuite.run_query_tests`
(lines 210-220). -/
def run_one_query_test {G : Type} (engine : QueryTest → ℕ × Str)
    (cmpXml : FormatComparator) (parse : Str → Except Str G)
    (isomorphic : G → G → Bool) (aliases : List (Str × Str))
    (number_types : List Str) (t : QueryTest) : Except PyExc (Status × ErrMsg) :=
  let (code, body) := engine t
  if code = 200 then
    evaluate_query cmpXml parse isomorphic aliases number_types
      t.result_file body t.result_format
  else
    process_failed_response body

/-- Model of `TestSuite.run_query_tests` (lines 200-228): groups whose
environment fails to set up have all their tests marked failed and are
skipped; otherwise each test is executed and evaluated in turn, with no
per-test exception handler. -/
def run_query_tests {G : Type} (engine : QueryTest → ℕ × Str)
    (cmpXml : FormatComparator) (parse : Str → Except Str G)
    (isomorphic : G → G → Bool) (aliases : List (Str × Str))
    (number_types : List Str) (groups : List TestGroup) :
    Except PyExc (List (Status × ErrMsg)) :=
  match groups with
  | [] => .ok []
  | g :: rest =>
    if ¬ g.setup_ok then do
      let tail ← run_query_tests engine cmpXml parse isomorphic aliases number_types rest
      return g.tests.map (fun _ => ((.failed : Status), (.indexBuildError : ErrMsg))) ++ tail
    else do
      let here ← g.tests.mapM
        (run_one_query_test engine cmpXml parse isomorphic aliases number_types)
      let tail ← run_query_tests engine cmpXml parse isomorphic aliases number_types rest
      return here ++ tail

/-- Model of `TestSuite.run` (lines 425-438) restricted to the phases that
reach `evaluate_query`: the query-test and format-test phases run in
sequence inside a `try` whose only handler catches `KeyboardInterrupt`
(which triggers engine cleanup and a normal return); every other exception
escapes. -/
def TestSuite_run {G : Type} (engine : QueryTest → ℕ × Str)
    (cmpXml : FormatComparator) (parse : Str → Except Str G)
    (isomorphic : G → G → Bool) (aliases : List (Str × Str))
    (number_types : List Str) (query_groups format_groups : List TestGroup) :
    Except PyExc (List (Status × ErrMsg)) :=
  let body : Except PyExc (List (Status × ErrMsg)) := do
    let s1 ← run_query_tests engine cmpXml parse isomorphic aliases number_types query_groups
    let s2 ← run_query_tests engine cmpXml parse isomorphic aliases number_types format_groups
    return s1 ++ s2
  match body with
  | .error .keyboardInterrupt => .ok []
  | r => r

/-! ## protocol_tools -/

/-- Python `str.startswith`. -/
def pyStartsWith (s pre : Str) : Bool :=
  pre.isPrefixOf s

/-- Python `str.endswith`. -/
def pyEndsWith (s suf : Str) : Bool :=
  suf.isSuffixOf s

/-- ASCII decimal digit test. -/
def isDig (c : Char) : Bool :=
  '0' ≤ c ∧ c ≤ '9'

/-- Number of non-overlapping occurrences, Python `str.count(sub)` for a
non-empty `sub`. -/
def countOcc (s sub : Str) : ℕ :=
  (pySplit s sub).length - 1

/-- Value of one hexadecimal digit. -/
def hexDigVal (c : Char) : Option ℕ :=
  if '0' ≤ c ∧ c ≤ '9' then some (c.toNat - 48)
  else if 'a' ≤ c ∧ c ≤ 'f' then some (c.toNat - 87)
  else if 'A' ≤ c ∧ c ≤ 'F' then some (c.toNat - 55)
  else none

/-- Model of Python `int(s, 16)` restricted to bare hexadecimal digit
strings (the chunk-size tokens of well-formed responses); whitespace, signs
and `0x` prefixes accepted by CPython are outside the modelled subset. -/
def hexVal (s : Str) : Option ℕ :=
  if s = [] then none
  else s.foldlM (fun acc c => (hexDigVal c).map (fun d => acc * 16 + d)) 0

/-- Split a string at its first CRLF, `response_body.find("\r\n", i)`. -/
def splitCRLF : Str → Option (Str × Str)
  | [] => none
  | c :: rest =>
    if c = '\x0d' ∧ rest.head? = some '\n' then some ([], rest.tail)
    else (splitCRLF rest).map (fun p => (c :: p.1, p.2))

/-- The loop of `parse_chunked_body` (protocol_tools lines 114-143); the
fuel argument bounds iterations and every reachable call site supplies more
fuel than the loop can consume. -/
def parse_chunked_body_go : ℕ → Str → Except PyExc Str
  | 0, _ => .ok []
  | fuel + 1, rest =>
    if rest = [] then .ok []
    else
      match splitCRLF rest with
      | none => .ok []
      | some (sizeLine, after) =>
        match hexVal sizeLine with
        | none => .error .valueError
        | some 0 => .ok []
        | some (n + 1) =>
          let chunk := after.take (n + 1)
          let rest' := after.drop (n + 1 + 2)
          (parse_chunked_body_go fuel rest').map (fun t => chunk ++ t)

/-- Model of `protocol_tools.parse_chunked_body` (lines 104-143). -/
def parse_chunked_body (s : Str) : Except PyExc Str :=
  parse_chunked_body_go (s.length + 1) s

/-- Model of `protocol_tools.parse_chunked_response` (lines 94-102):
`response.split('\r\n\r\n', 1)` raises `ValueError` (tuple unpacking) when
the separator is absent. -/
def parse_chunked_response (response : Str) : Except PyExc Str :=
  match pySplit response (("\x0d\n\x0d\n").data) with
  | _ :: bodyFirst :: more =>
    parse_chunked_body (pyJoin (("\x0d\n\x0d\n").data) (bodyFirst :: more))
  | _ => .error .valueError

/-- Modelled from the spec: chunked-transfer encoding of a chunk list — for
each chunk a hexadecimal size line, CRLF, the payload, CRLF; terminated by a
zero-size chunk.  The repository contains no encoder; this definition
follows the claim's description of a valid chunked body. -/
def hexDigitChar : ℕ → Char
  | 0 => '0' | 1 => '1' | 2 => '2' | 3 => '3'
  | 4 => '4' | 5 => '5' | 6 => '6' | 7 => '7'
  | 8 => '8' | 9 => '9' | 10 => 'a' | 11 => 'b'
  | 12 => 'c' | 13 => 'd' | 14 => 'e' | _ => 'f'

/-- Digit loop of the hexadecimal rendering. -/
def natToHexGo : ℕ → ℕ → Str → Str
  | _, 0, acc => acc
  | 0, _ + 1, acc => acc
  | n + 1, fuel + 1, acc =>
    natToHexGo ((n + 1) / 16) fuel (hexDigitChar ((n + 1) % 16) :: acc)

/-- Lower-case hexadecimal rendering of a natural number (the fuel of the
digit loop never runs out, since `n / 16 < n`). -/
def natToHex (n : ℕ) : Str :=
  if n = 0 then [('0' : Char)] else natToHexGo n n []

/-- Modelled from the spec: the encoding of a single chunk. -/
def encodeChunk (c : Str) : Str :=
  natToHex c.length ++ ('\x0d' :: '\n' :: c) ++ [('\x0d' : Char), '\n']

/-- Modelled from the spec: a complete valid chunked body for the given
chunk list, terminated by the zero-size chunk line. -/
def chunkEncode (chunks : List Str) : Str :=
  (chunks.map encodeChunk).flatten ++ ("0\x0d\n").data

/-- The protocol test parameters consumed from the `TestObject`. -/
structure ProtoTest where
  type_name : Str
  graphstore : Str

/-- State of the line-rewriting loop of `prepare_request` (lines 24-35):
the rewritten lines so far, `before_header`, `index_header` and
`index_line_between`. -/
structure PrepReqState where
  lines : List Str
  before_header : Bool
  index_header : ℕ
  index_line_between : ℕ

/-- One iteration of the `prepare_request` line loop.  As in the source,
the `sparql` → endpoint replacement is written back to the line list only
on the `GET`-without-`HTTP/1.1` path; on every other path the stripped
original line is stored. -/
def prepReqLine (endpoint : Str) (st : PrepReqState) (index : ℕ) (line0 : Str) :
    PrepReqState :=
  let line1 := pyStrip line0
  let ilb :=
    if line1 = [] ∧ ¬ st.before_header ∧ st.index_line_between = 0 then index
    else st.index_line_between
  let isMethod := pyStartsWith line1 ("POST").data ∨ pyStartsWith line1 ("GET").data ∨
    pyStartsWith line1 ("PUT").data ∨ pyStartsWith line1 ("DELETE").data ∨
    pyStartsWith line1 ("HEAD").data
  let bh := if isMethod then false else st.before_header
  let ih := if isMethod then index else st.index_header
  let line2 := if isMethod then pyReplace line1 ("sparql").data endpoint else line1
  let stored :=
    if pyStartsWith line2 ("GET").data ∧ ¬ pyEndsWith line2 ("HTTP/1.1").data then
      line2 ++ (" HTTP/1.1").data
    else line1
  ⟨st.lines ++ [stored], bh, ih, ilb⟩

/-- Fold of the `prepare_request` line loop over the enumerated lines. -/
def prepReqLoop (endpoint : Str) : List Str → ℕ → PrepReqState → PrepReqState
  | [], _, st => st
  | l :: rest, index, st =>
    prepReqLoop endpoint rest (index + 1) (prepReqLine endpoint st index l)

/-- Model of `protocol_tools.prepare_request` (lines 11-50); the network
side is separate, so the function returns the header and body texts. -/
def prepare_request (endpoint : Str) (test : ProtoTest)
    (request_with_reponse : Str) (newpath : Str) : Str × Str :=
  let request0 := (pySplit request_with_reponse ("#### Response").data).headD []
  let request1 := pyReplace request0 ("application/x-www-url-form-urlencoded").data
    ("application/x-www-form-urlencoded").data
  let request :=
    if test.type_name = ("GraphStoreProtocolTest").data then
      pyReplace (pyReplace request1 ("$HOST$").data ("localhost").data)
        ("$NEWPATH$").data newpath
    else request1
  let st := prepReqLoop endpoint (pySplitLines request []) 0 ⟨[], true, 0, 0⟩
  let request_header_lines0 :=
    (st.lines.drop st.index_header).take (st.index_line_between - st.index_header)
  let request_header_lines :=
    if (request_header_lines0.filter (fun l => pyContains l ("Content-Length").data)).length = 0 then
      request_header_lines0 ++ [("Content-Length: XXX").data]
    else request_header_lines0
  let request_body_lines := (st.lines.drop (st.index_line_between + 1)).filter (fun x => x ≠ [])
  let request_header0 := pyJoin (("\x0d\n").data) request_header_lines
  let request_body0 := pyJoin (("\x0d\n").data) request_body_lines
  let request_header1 := request_header0 ++ ("\x0d\n").data ++ ("Authorization: Bearer abc").data
  let (request_header2, request_body) :=
    if test.type_name = ("GraphStoreProtocolTest").data then
      (pyReplace request_header1 ("$GRAPHSTORE$").data ('/' :: test.graphstore),
        pyReplace request_body0 ("$GRAPHSTORE$").data test.graphstore)
    else (request_header1, request_body0)
  let request_header := pyReplace request_header2 ("XXX").data (toString request_body.length).data
  (request_header ++ ("\x0d\n\x0d\n").data, request_body ++ ("\x0d\n").data)

/-- The parsed expectations of one `#### Response` section. -/
structure ExpectedResponse where
  status_codes : List Str
  content_types : List Str
  result? : Option Str
  has_newpath : Bool
  deriving DecidableEq, Repr

/-- Whether a line contains a digit followed by `xx` (`re.search(r'\dxx', line)`). -/
def hasDxx : Str → Bool
  | c1 :: c2 :: c3 :: rest => (isDig c1 && c2 = 'x' && c3 = 'x') || hasDxx (c2 :: c3 :: rest)
  | _ => false

/-- The leading `ddd ` token of a line (`re.search(r'^\d\d\d ', line)`). -/
def leadingStatusTok : Str → Option Str
  | d1 :: d2 :: d3 :: ' ' :: _ =>
    if isDig d1 && isDig d2 && isDig d3 then some [d1, d2, d3, ' '] else none
  | _ => none

/-- One line of the `prepare_response` scan (lines 64-87); note that the
`response`-stripped rewriting of the line persists for the later checks of
the same iteration, as in the source. -/
def prepRespLine (st : ExpectedResponse) (line0 : Str) : ExpectedResponse :=
  let (line1, codes1) :=
    if pyEndsWith line0 ("response").data ∨ hasDxx line0 then
      let l := pyReplace line0 ("response").data []
      (l, st.status_codes ++ (pySplit (pyStrip l) ("or").data).map pyStrip)
    else (line0, st.status_codes)
  let codes2 :=
    match leadingStatusTok line1 with
    | some tok => codes1 ++ [tok]
    | none => codes1
  let (line2, cts) :=
    if pyStartsWith line1 ("Content-Type:").data then
      let l := pyReplace line1 ("Content-Type:").data []
      (l, st.content_types ++
        ((pySplit (pyStrip l) ("or").data).flatMap (fun content_type =>
          (pySplit content_type [',']).filterMap (fun ct =>
            if ct = [] then none
            else some ((pySplit (pyStrip ct) [';']).headD [])))))
    else (line1, st.content_types)
  let res1 := if pyStartsWith line2 ("true").data then some ("true").data else st.result?
  let res2 := if pyStartsWith line2 ("false").data then some ("false").data else res1
  let np := if pyStartsWith line2 ("Location: $NEWPATH$").data then true else st.has_newpath
  ⟨codes2, cts, res2, np⟩

/-- Model of `protocol_tools.prepare_response` (lines 53-91);
`request_with_reponse.split('#### Response')[1]` raises `IndexError` when
the section marker is absent. -/
def prepare_response (test : ProtoTest) (request_with_reponse : Str)
    (newpath : Str) : Except PyExc ExpectedResponse := do
  let parts := pySplit request_with_reponse ("#### Response").data
  let response_string0 ←
    match parts.drop 1 with
    | r :: _ => pure r
    | [] => throw .indexError
  let response_string :=
    if test.type_name = ("GraphStoreProtocolTest").data then
      pyReplace (pyReplace (pyReplace response_string0
        ("$HOST$").data ("localhost").data)
        ("$GRAPHSTORE$").data test.graphstore)
        ("$NEWPATH$").data newpath
    else response_string0
  let response_lines := ((pySplitLines response_string []).filter (fun x => x ≠ [])).map pyStrip
  let st := response_lines.foldl prepRespLine ⟨[], [], none, false⟩
  if ("text/turtle").data ∈ st.content_types ∧ st.result? = none then
    return ⟨st.status_codes, st.content_types,
      some (pyJoin ("\n\n").data ((pySplit response_string ("\n\n").data).drop 2)),
      st.has_newpath⟩
  else
    return st

/-- Whether `got` contains, at some position, `HTTP/1.1 ` followed by an
instance of the status-code pattern (`x` standing for one digit): the
`re.search` of `compare_response` lines 151-160. -/
def statusPatChars : Str → Str → Bool
  | [], _ => true
  | _ :: _, [] => false
  | c :: cs, d :: ds => (if c = 'x' then isDig d else c = d) && statusPatChars cs ds

/-- Search for the built status pattern anywhere in the response. -/
def statusPatSearch (sc : Str) (got : Str) : Bool :=
  (List.range (got.length + 1)).any (fun i =>
    let t := got.drop i
    ("HTTP/1.1 ").data.isPrefixOf t && statusPatChars sc (t.drop 9))

/-- Python truthiness of an optional decoded JSON value
(`bool(parsed.get('results', {}).get('bindings'))`). -/
def pyTruthyOpt : Option PyJson → Bool
  | none => false
  | some .null => false
  | some (.boolean b) => b
  | some (.num n _) => n != 0
  | some (.str s) => ¬ s.isEmpty
  | some (.arr xs) => ¬ xs.isEmpty
  | some (.obj fs) => ¬ fs.isEmpty

/-- The first `^Location:\s*(.*)` capture of the response
(`re.MULTILINE`): at the first line start with prefix `Location:`, skip
whitespace (which, as in the regex, may cross line breaks) and capture up
to the next LF. -/
def findLocation : Str → Bool → Option Str
  | [], _ => none
  | c :: rest, atLineStart =>
    if atLineStart ∧ pyStartsWith (c :: rest) ("Location:").data then
      some ((((c :: rest).drop 9).dropWhile pySpace).takeWhile (fun x => x ≠ '\n'))
    else findLocation rest (c = '\n')

/-- Model of `protocol_tools.compare_response` (lines 146-192),
parameterised like `compare_ttl` by the rdflib capabilities its Turtle
branch delegates to.  The chunk decoding of the Turtle branch is outside
any handler, so its `ValueError`s propagate. -/
def compare_response {G : Type} (parse : Str → Except Str G)
    (isomorphic : G → G → Bool) (er : ExpectedResponse) (got_response : Str)
    (is_select : Bool) : Except PyExc (Bool × Str) := do
  let status_code_match := er.status_codes.any (fun sc => statusPatSearch sc got_response)
  let content_type_match := er.content_types.isEmpty ||
    er.content_types.any (fun ct => pyContains got_response ct)
  let result_match0 : Bool :=
    match er.result? with
    | none => true
    | some r => pyContains got_response r
  let hasTruthyResult : Bool :=
    match er.result? with
    | some r => !r.isEmpty
    | none => false
  let result_match1 : Bool :=
    if hasTruthyResult && is_select then
      match (do
        let body ← parse_chunked_response got_response
        let parsed ← jsonLoads body
        let results? ← pyGetAttr parsed ("results").data
        let bindings? ← pyGetAttr (results?.getD (.obj [])) ("bindings").data
        pure (pyTruthyOpt bindings?) : Except PyExc Bool) with
      | .error _ => result_match0
      | .ok v => v
    else result_match0
  let result_match ←
    if ("text/turtle").data ∈ er.content_types ∧ status_code_match ∧ content_type_match then do
      let response_ttl ← parse_chunked_response got_response
      let r ← match er.result? with
        | some r => pure r
        | none => throw .keyError
      let st := (compare_ttl parse isomorphic r response_ttl).1.1
      if st.toStr = ("Passed").data then pure true else pure result_match1
    else pure result_match1
  let newpath : Str :=
    if er.has_newpath then (findLocation got_response true).getD [] else []
  return (status_code_match && content_type_match && result_match, newpath)

/-- Result record of `run_protocol_test`; `statusList` is the source's
local `status` list of per-pair match outcomes, returned here so that the
aggregation can be stated. -/
structure ProtoRunResult where
  result : Status
  error_type : ErrMsg
  requests : List Str
  responses : List ExpectedResponse
  got_responses : List Str
  statusList : List Bool
  newpath : Str
  deriving DecidableEq, Repr

/-- The request/response loop of `run_protocol_test` (lines 215-230); `net`
is the raw-socket collaborator mapping the written request text to the text
read back (a read timeout is a short or empty response, not an error). -/
def protoLoop {G : Type} (parse : Str → Except Str G) (isomorphic : G → G → Bool)
    (net : Str → Str) (endpoint : Str) (test : ProtoTest) :
    List Str → List Str × List ExpectedResponse × List Str × List Bool × Str →
    Except PyExc (List Str × List ExpectedResponse × List Str × List Bool × Str)
  | [], st => .ok st
  | rwr :: rest, (reqs, resps, gots, stats, np) => do
    let (request_head, request_body) := prepare_request endpoint test rwr np
    let resp ← prepare_response test rwr np
    let tn_response := net (request_head ++ request_body)
    let (matching, np') ← compare_response parse isomorphic resp tn_response
      (pyContains rwr ("SELECT").data)
    protoLoop parse isomorphic net endpoint test rest
      (reqs ++ [request_head ++ request_body], resps ++ [resp],
        gots ++ [tn_response], stats ++ [matching], np')

/-- The request/response section split of `run_protocol_test`
(lines 205-211). -/
def protocol_request_sections (test_protocol : Str) : List Str :=
  if pyContains test_protocol ("followed by").data then
    pySplit test_protocol ("followed by").data
  else if countOcc test_protocol ("#### Request").data > 1 then
    (pySplit test_protocol ("#### Request").data).filter (fun line => line.length > 2)
  else [test_protocol]

/-- Model of `protocol_tools.run_protocol_test` (lines 195-243). -/
def run_protocol_test {G : Type} (parse : Str → Except Str G)
    (isomorphic : G → G → Bool) (net : Str → Str) (endpoint : Str)
    (test : ProtoTest) (test_protocol : Str) (newpath0 : Str) :
    Except PyExc ProtoRunResult := do
  let (reqs, resps, gots, stats, np) ←
    protoLoop parse isomorphic net endpoint test
      (protocol_request_sections test_protocol) ([], [], [], [], newpath0)
  let (result, error_type) : Status × ErrMsg :=
    if stats.all id then (.passed, .empty) else (.failed, .resultsNotTheSame)
  return ⟨result, error_type, reqs, resps, gots, stats, np⟩

/-! ## Supporting lemmas -/

/-- Dropping a prefix from a list ending in a non-dropped element keeps
that final element. -/
theorem dropWhile_append_singleton (p : Char → Bool) (l : List Char) (c : Char)
    (hc : p c = false) : ∃ l', (l ++ [c]).dropWhile p = l' ++ [c] := by
  induction l with
  | nil => exact ⟨[], by simp [List.dropWhile, hc]⟩
  | cons a as ih =>
    by_cases hpa : p a = true
    · simpa [List.dropWhile_cons, hpa] using ih
    · exact ⟨a :: as, by simp [List.dropWhile_cons, hpa]⟩

/-- Stripping a string that starts with an underscore yields a string that
starts with an underscore. -/
theorem pyStrip_underscore (rest : Str) :
    ∃ t : Str, pyStrip ('_' :: rest) = '_' :: t := by
  obtain ⟨l', hl'⟩ := dropWhile_append_singleton pySpace rest.reverse '_' (by decide)
  refine ⟨l'.reverse, ?_⟩
  have h1 : (('_' :: rest) : Str).dropWhile pySpace = '_' :: rest := by
    simp [List.dropWhile_cons, show pySpace '_' = false from by decide]
  show ((((('_' :: rest) : Str).dropWhile pySpace).reverse.dropWhile pySpace).reverse : Str) = _
  rw [h1]
  have h2 : (('_' :: rest) : Str).reverse = rest.reverse ++ ['_'] := by simp
  rw [h2, hl']
  simp

/-- A string beginning with an underscore is not accepted by `float`. -/
theorem is_number_head_underscore (v : Str) (h : v.head? = some '_') :
    is_number v = false := by
  match v, h with
  | c :: rest, h =>
    have hc : c = '_' := by simpa using h
    subst hc
    obtain ⟨t, ht⟩ := pyStrip_underscore rest
    have hsign : splitSign (pyStrip ('_' :: rest)) = (false, '_' :: t) := by
      rw [ht]; simp [splitSign]
    have hlow : asciiLower ('_' :: t) = '_' :: asciiLower t := by
      simp [asciiLower]
    have htd : takeDigits ('_' :: t) = ([], '_' :: t) := by
      simp [takeDigits, List.takeWhile_cons, List.dropWhile_cons]
    simp only [is_number, pyFloatOfStr, hsign, hlow]
    rw [if_neg (by simp), if_neg (by push_neg; constructor <;> simp)]
    simp only [parseDecimal, htd]
    simp

/-! ## C7: numeric literal equivalence -/

/-- C7 counterexample: `"nan"` parses as a numeric literal on both sides
and is *not* numerically equal to itself as a float (`nan != nan`), yet
`compare_values` reports the two values equal (string equality is checked
first), so numeric-literal pairs are not compared "exactly" by
floating-point equality. -/
theorem C7_counterexample :
    is_number (("nan").data) = true ∧
    pyFloatEq ((pyFloatOfStr (("nan").data)).getD .nan)
      ((pyFloatOfStr (("nan").data)).getD .nan) = false ∧
    (compare_values (some (("nan").data)) (some (("nan").data)) false [] []).1 = true := by
  refine ⟨by decide, by decide, by decide⟩

/-- C7 (amended): for two values that both parse as numeric literals,
`compare_values` returns true exactly when the strings are identical or
their parsed floats are equal — for every leniency flag and alias table,
and without touching the bnode dictionary.  (For distinct strings this is
exactly float equality; identical strings are accepted even when their
float value is `nan`.) -/
theorem C7_numeric_equivalence (v1 v2 : Str) (uc : Bool)
    (aliases : List (Str × Str)) (m : BMap)
    (h1 : is_number v1 = true) (h2 : is_number v2 = true) :
    compare_values (some v1) (some v2) uc aliases m =
      ((decide (v1 = v2) ||
        pyFloatEq ((pyFloatOfStr v1).getD .nan) ((pyFloatOfStr v2).getD .nan)), m) := by
  have hbn : ¬ (v1.length > 1 ∧ v2.length > 1 ∧
      v1.head? = some '_' ∧ v2.head? = some '_') := by
    rintro ⟨-, -, hh1, -⟩
    rw [is_number_head_underscore v1 hh1] at h1
    exact Bool.false_ne_true h1
  by_cases heq : v1 = v2
  · subst heq
    simp only [compare_values]
    rw [if_neg hbn]
    simp
  · simp only [compare_values, if_neg hbn, if_neg heq]
    rw [if_pos ⟨h1, h2⟩]
    simp [heq]
    split <;> simp_all

/-- C7 witness: the amended characterisation applied at the claim's
examples — `"30000"` and `"3E4"` compare equal, `"30000"` and `"30001"` do
not. -/
theorem C7_witness :
    compare_values (some (("30000").data)) (some (("3E4").data)) false [] [] = (true, []) ∧
    compare_values (some (("30000").data)) (some (("30001").data)) false [] [] = (false, []) := by
  constructor
  · rw [C7_numeric_equivalence _ _ _ _ _ (by decide) (by decide)]
    decide
  · rw [C7_numeric_equivalence _ _ _ _ _ (by decide) (by decide)]
    decide

/-! ## C2: the bnode mapping is a strict bijection -/

/-- A JSON binding with a single variable `k` bound to a bnode labelled
`v`, the shape reconciled by `json_elements_equal`. -/
def mkBnodeBinding (k v : Str) : PyJson :=
  .obj [(k, .obj [(("type").data, .str (("bnode").data)), (("value").data, .str v)])]

/-- C2 counterexample: with `n1 ↦ n2` already recorded, comparing two
bindings that both carry the bnode label `n1` asserts `n1 ↦ n1` — a
conflict with the recorded mapping — yet `json_elements_equal` returns
true, because it short-circuits on raw value equality before consulting
the mapping. -/
theorem C2_counterexample :
    json_elements_equal (mkBnodeBinding (("v").data) (("n1").data))
      (mkBnodeBinding (("v").data) (("n1").data)) false [] []
      [((("n1").data), (("n2").data)), ((("n2").data), (("n1").data))] =
    ([((("n1").data), (("n2").data)), ((("n2").data), (("n1").data))], .ok true) := by
  decide

/-- C2 (amended): once `a ↦ x` is recorded the mapping is never revised —
a conflicting assertion makes the comparison false and leaves the
dictionary unchanged (no backtracking).  For the CSV/TSV value comparator
this holds exactly as claimed: comparing `a` against any `y ≠ x` fails, and
comparing any `b ≠ a` against `x` fails.  For the JSON element comparator
the same holds whenever the asserted label differs from the expected label
(`a ≠ y`); when the two labels are literally equal the comparator
short-circuits before consulting the mapping (the counterexample). -/
theorem C2_bnode_mapping_strict (m : BMap) (a x y b k : Str) (uc : Bool)
    (aliases : List (Str × Str)) (number_types : List Str)
    (hax : bmGet m a = some x) (hxa : bmGet m x = some a)
    (ha : a.length > 1 ∧ a.head? = some '_')
    (hx : x.length > 1 ∧ x.head? = some '_')
    (hy : y.length > 1 ∧ y.head? = some '_')
    (hb : b.length > 1 ∧ b.head? = some '_')
    (hyx : y ≠ x) (hba : b ≠ a) (hay : a ≠ y)
    (hnt : (("None").data) ∉ number_types)
    (hal : uc = false ∨ ((a, y) ∉ aliases ∧ (y, a) ∉ aliases)) :
    compare_values (some a) (some y) uc aliases m = (false, m) ∧
    compare_values (some b) (some x) uc aliases m = (false, m) ∧
    json_elements_equal (mkBnodeBinding k a) (mkBnodeBinding k y)
      uc aliases number_types m = (m, .ok false) := by
  refine ⟨?_, ?_, ?_⟩
  · simp only [compare_values]
    rw [if_pos ⟨ha.1, hy.1, ha.2, hy.2⟩]
    rw [if_neg (by simp [bmHas, hax])]
    rw [if_neg ?hcond]
    case hcond =>
      rintro ⟨h1, -⟩
      rw [hax] at h1
      exact hyx (by injection h1 with h1; exact h1.symm)
  · simp only [compare_values]
    rw [if_pos ⟨hb.1, hx.1, hb.2, hx.2⟩]
    rw [if_neg (by simp [bmHas, hxa])]
    rw [if_neg ?hcond2]
    case hcond2 =>
      rintro ⟨-, h2⟩
      rw [hxa] at h2
      exact hba (by injection h2 with h2; exact h2.symm)
  · have hbeq : PyJson.beq (.str a) (.str y) = false := by
      simp only [PyJson.beq]
      rw [beq_eq_false_iff_ne]
      exact hay
    have hstep2 : jeqSubkeyStep
        [((['t', 'y', 'p', 'e'] : Str), PyJson.str (['b', 'n', 'o', 'd', 'e'] : Str)),
          ((['v', 'a', 'l', 'u', 'e'] : Str), PyJson.str a)]
        [((['t', 'y', 'p', 'e'] : Str), PyJson.str (['b', 'n', 'o', 'd', 'e'] : Str)),
          ((['v', 'a', 'l', 'u', 'e'] : Str), PyJson.str y)]
        uc aliases number_types (['v', 'a', 'l', 'u', 'e'] : Str) m = (m, .ok false) := by
      simp only [jeqSubkeyStep]
      rw [if_neg (by simp +decide [objGet, obeq, hbeq])]
      rw [if_pos (by simp +decide [objGet, pyStrOfOpt])]
      simp +decide only [objGet, bnodeKey, if_true, if_false]
      rw [if_neg (by simp [bmHas, hax])]
      rw [if_neg (by
        rintro ⟨h1, -⟩
        rw [hax] at h1
        exact hyx (by injection h1 with h1; exact h1.symm))]
      rw [if_neg (by
        simp only [pyStrOfOpt]
        rintro ⟨hc, -⟩
        exact hnt hc)]
      rcases hal with hal | hal
      · subst hal
        simp
      · rw [if_neg (by
          rintro ⟨-, hc | hc⟩ <;>
            simp only [aliasPairHit, decide_eq_true_eq] at hc
          · exact hal.1 hc
          · exact hal.2 hc)]
    have hstep1 : jeqSubkeyStep
        [((['t', 'y', 'p', 'e'] : Str), PyJson.str (['b', 'n', 'o', 'd', 'e'] : Str)),
          ((['v', 'a', 'l', 'u', 'e'] : Str), PyJson.str a)]
        [((['t', 'y', 'p', 'e'] : Str), PyJson.str (['b', 'n', 'o', 'd', 'e'] : Str)),
          ((['v', 'a', 'l', 'u', 'e'] : Str), PyJson.str y)]
        uc aliases number_types (['t', 'y', 'p', 'e'] : Str) m = (m, .ok true) := by
      simp only [jeqSubkeyStep]
      rw [if_pos (by simp +decide [objGet, obeq, PyJson.beq])]
    simp only [json_elements_equal, mkBnodeBinding]
    rw [if_neg (by simp)]
    simp only [jeqFields, objGet, if_pos]
    simp only [jeqSubkeys, subKeysUnion]
    simp only [jeqSubkeys, hstep1, hstep2]

/-- C2 witness: with `_a ↦ _x` recorded, asserting `_a ↦ _y` fails in the
CSV/TSV comparator and in the JSON comparator, leaving the mapping
unchanged. -/
theorem C2_witness :
    compare_values (some (("_a").data)) (some (("_y").data)) false []
        [((("_a").data), (("_x").data)), ((("_x").data), (("_a").data))] =
      (false, [((("_a").data), (("_x").data)), ((("_x").data), (("_a").data))]) ∧
    json_elements_equal (mkBnodeBinding (("v").data) (("_a").data))
        (mkBnodeBinding (("v").data) (("_y").data)) false [] []
        [((("_a").data), (("_x").data)), ((("_x").data), (("_a").data))] =
      ([((("_a").data), (("_x").data)), ((("_x").data), (("_a").data))], .ok false) := by
  have h := C2_bnode_mapping_strict
    [((("_a").data), (("_x").data)), ((("_x").data), (("_a").data))]
    (("_a").data) (("_x").data) (("_y").data) (("_b").data) (("v").data) false [] []
    (by decide) (by decide) (by decide) (by decide) (by decide) (by decide)
    (by decide) (by decide) (by decide) (by decide) (Or.inl rfl)
  exact ⟨h.1, h.2.2⟩

/-! ## C3: alias equivalence only via the lenient pass -/

/-- C3: a pair of values that differ and are related only through the
alias table is rejected by the strict pass and accepted by the lenient
pass of `compare_values` (first conjunct); and whenever the strict
reconciliation pass of `compare_sv` leaves a non-empty residual that the
lenient pass clears, the overall status is `Intended` — which is distinct
from `Passed` — with the intended-behaviour message (second conjunct). -/
theorem C3_alias_needs_lenient :
    (∀ (v1 v2 : Str) (aliases : List (Str × Str)) (m : BMap),
      v1 ≠ v2 →
      ¬ (is_number v1 = true ∧ is_number v2 = true) →
      ¬ (v1.length > 1 ∧ v2.length > 1 ∧ v1.head? = some '_' ∧ v2.head? = some '_') →
      ((v1, v2) ∈ aliases ∨ (v2, v1) ∈ aliases) →
      compare_values (some v1) (some v2) false aliases m = (false, m) ∧
      compare_values (some v1) (some v2) true aliases m = (true, m)) ∧
    (∀ (expected_array actual_array0 : List Row) (aliases : List (Str × Str))
      (ac ec : List Row) (m m2 : BMap),
      compare_array expected_array (reorder_columns_to_expected expected_array actual_array0)
        (reorder_columns_to_expected expected_array actual_array0) expected_array
        false aliases [] = .ok (ac, ec, m) →
      ¬ (ac = [] ∧ ec = []) →
      compare_array ec ac ac ec true aliases m = .ok ([], [], m2) →
      compare_sv_arrays expected_array actual_array0 aliases = .ok (.intended, .intendedMsg) ∧
      (Status.intended ≠ Status.passed)) := by
  constructor
  · intro v1 v2 aliases m hne hnum hbn hal
    constructor
    · simp only [compare_values, if_neg hbn, if_neg hne, if_neg hnum]
      rw [if_neg (by simp)]
    · simp only [compare_values, if_neg hbn, if_neg hne, if_neg hnum]
      rw [if_pos ⟨trivial, hal⟩]
  · intro expected_array actual_array0 aliases ac ec m m2 h1 hne h2
    refine ⟨?_, by decide⟩
    simp only [compare_sv_arrays, h1, Bind.bind, Except.bind]
    rw [if_neg hne]
    rw [h2]
    simp [pure, Except.pure]

/-- C3 witness: the alias pair `int`/`integer` fails the strict pass,
passes the lenient pass, and drives `compare_sv` to `Intended`. -/
theorem C3_witness :
    compare_values (some (("int").data)) (some (("integer").data)) false
        [((("int").data), (("integer").data))] [] = (false, []) ∧
    compare_values (some (("int").data)) (some (("integer").data)) true
        [((("int").data), (("integer").data))] [] = (true, []) ∧
    compare_sv_arrays [[("int").data]] [[("integer").data]]
        [((("int").data), (("integer").data))] = .ok (.intended, .intendedMsg) := by
  have ha := C3_alias_needs_lenient.1 (("int").data) (("integer").data)
    [((("int").data), (("integer").data))] [] (by decide) (by decide) (by decide)
    (by decide)
  have hb := C3_alias_needs_lenient.2 [[("int").data]] [[("integer").data]]
    [((("int").data), (("integer").data))]
    [[("integer").data]] [[("int").data]] [] []
    (by decide) (by decide) (by decide)
  exact ⟨ha.1, ha.2, hb.1⟩

/-! ## C5: Turtle parse failures -/

/-- C5: the ghost trace of `compare_ttl` shows that the expected payload is
parsed once, retried at most once — and then exactly with the injected
namespace prefixes — and that the query payload is parsed at most once
(first conjunct).  When the expected payload fails both attempts the result
is `FormatError` and the query payload is never parsed; when the query
payload fails, the result is `FormatError`; in both failure cases the
result does not depend on the isomorphism check at all (it is the same for
every isomorphism function), so no graph-isomorphism check is consulted
before the `FormatError` outcome. -/
theorem C5_ttl_parse_failure (G : Type) (parse : Str → Except Str G)
    (iso1 iso2 : G → G → Bool) (e q : Str) :
    ((compare_ttl parse iso1 e q).2 =
      match parse e with
      | .ok _ => [e, q]
      | .error _ =>
        match parse (ttlPrefixes ++ e) with
        | .ok _ => [e, ttlPrefixes ++ e, q]
        | .error _ => [e, ttlPrefixes ++ e]) ∧
    ((∃ m1, parse e = .error m1) → (∃ m2, parse (ttlPrefixes ++ e) = .error m2) →
      (compare_ttl parse iso1 e q).1 = (.notTested, .formatError) ∧
      compare_ttl parse iso1 e q = compare_ttl parse iso2 e q) ∧
    ((∃ g, parse e = .ok g ∨ parse (ttlPrefixes ++ e) = .ok g) →
      (∃ m, parse q = .error m) →
      (compare_ttl parse iso1 e q).1 = (.failed, .formatError) ∧
      compare_ttl parse iso1 e q = compare_ttl parse iso2 e q) := by
  refine ⟨?_, ?_, ?_⟩
  · cases hpe : parse e with
    | ok g =>
      cases hpq : parse q with
      | ok g2 =>
        simp only [compare_ttl, compare_ttl_rest, hpe, hpq]
        split <;> rfl
      | error m => simp [compare_ttl, compare_ttl_rest, hpe, hpq]
    | error m =>
      cases hpe2 : parse (ttlPrefixes ++ e) with
      | ok g =>
        cases hpq : parse q with
        | ok g2 =>
          simp only [compare_ttl, compare_ttl_rest, hpe, hpe2, hpq]
          split <;> rfl
        | error m3 => simp [compare_ttl, compare_ttl_rest, hpe, hpe2, hpq]
      | error m2 => simp [compare_ttl, hpe, hpe2]
  · rintro ⟨m1, hm1⟩ ⟨m2, hm2⟩
    constructor <;> simp [compare_ttl, hm1, hm2]
  · rintro ⟨g, hg | hg⟩ ⟨m, hm⟩
    · constructor <;> simp [compare_ttl, compare_ttl_rest, hg, hm]
    · cases hpe : parse e with
      | ok g2 => constructor <;> simp [compare_ttl, compare_ttl_rest, hpe, hm]
      | error me => constructor <;> simp [compare_ttl, compare_ttl_rest, hpe, hg, hm]

/-- C5 witness: a parser that rejects both attempts at the expected payload
yields `FormatError` with exactly the two expected-side parse attempts and
an isomorphism-independent result. -/
theorem C5_witness :
    (compare_ttl (fun _ => (.error [] : Except Str Unit)) (fun _ _ => true)
        (("bad").data) (("q").data)).1 = (.notTested, .formatError) ∧
    (compare_ttl (fun _ => (.error [] : Except Str Unit)) (fun _ _ => true)
        (("bad").data) (("q").data)).2 =
      [("bad").data, ttlPrefixes ++ ("bad").data] := by
  have h := C5_ttl_parse_failure Unit (fun _ => (.error [] : Except Str Unit))
    (fun _ _ => true) (fun _ _ => false) (("bad").data) (("q").data)
  refine ⟨(h.2.1 ⟨[], rfl⟩ ⟨[], rfl⟩).1, ?_⟩
  rw [h.1]

/-! ## C6: CSV header permutation -/

/-- C6 counterexample: `_reorder_columns_to_expected` rewrites every row of
the actual array, including its header row — for expected header
`[s, p, o]` and actual header `[o, p, s]` the actual header row itself is
changed — so the reordering does not affect only data rows. -/
theorem C6_counterexample :
    (reorder_columns_to_expected
        [[("s").data, ("p").data, ("o").data], [("1").data, ("2").data, ("3").data]]
        [[("o").data, ("p").data, ("s").data], [("3").data, ("2").data, ("1").data]]).head? ≠
      (([[("o").data, ("p").data, ("s").data],
        [("3").data, ("2").data, ("1").data]] : List Row)).head? := by
  decide

/-- The alignment invariant of `_build_column_mapping`: each selected index
points at a column whose stripped name is the stripped wanted name. -/
theorem bcmGo_strip (ah : Row) : ∀ (eh : Row) (used : List ℕ) (M : List ℕ),
    bcmGo ah eh used = some M →
    M.map (fun j => pyStrip (ah.getD j [])) = eh.map pyStrip := by
  intro eh
  induction eh with
  | nil =>
    intro used M h
    simp only [bcmGo, Option.some.injEq] at h
    subst h
    simp
  | cons name rest ih =>
    intro used M h
    simp only [bcmGo] at h
    cases hfind : bcmFind ah used name with
    | none => simp [hfind] at h
    | some j =>
      simp only [hfind] at h
      cases hrec : bcmGo ah rest (j :: used) with
      | none => simp [hrec] at h
      | some M' =>
        rw [hrec] at h
        injection h with h
        subst h
        have hp := List.find?_some hfind
        simp only [decide_eq_true_eq] at hp
        simp only [List.getD, List.get?_eq_getElem?] at hp
        have hihg := ih _ _ hrec
        simp only [List.getD, List.get?_eq_getElem?] at hihg
        simp [List.map_cons, List.getD, List.get?_eq_getElem?, hp.2, hihg]

/-- C6 (amended): when the headers are permutations of each other and a
column mapping exists, *all* rows of the actual array — the header row
included — are reordered through the mapping before comparison; the
reordered header aligns column-for-column (up to surrounding whitespace)
with the expected header; and the claim's example — expected
`s,p,o`/`1,2,3` against actual `o,p,s`/`3,2,1` — compares as `Passed`. -/
theorem C6_header_permutation (eh ah : Row) (etl atl : List Row) (M : List ℕ)
    (hsort : sortStrs eh = sortStrs ah)
    (hmap : build_column_mapping eh ah = some M) :
    reorder_columns_to_expected (eh :: etl) (ah :: atl) =
      (ah :: atl).map (reorder_row M) ∧
    (reorder_row M ah).map pyStrip = eh.map pyStrip ∧
    compare_sv (("s,p,o\n1,2,3").data) (("o,p,s\n3,2,1").data) (("csv").data) [] =
      .ok (.passed, .empty) := by
  refine ⟨?_, ?_, by decide⟩
  · simp [reorder_columns_to_expected, hsort, hmap]
  · have hgo : bcmGo ah eh [] = some M := by
      simp only [build_column_mapping] at hmap
      by_cases hlen : eh.length ≠ ah.length
      · rw [if_pos hlen] at hmap; exact absurd hmap (by simp)
      · rwa [if_neg hlen] at hmap
    have := bcmGo_strip ah eh [] M hgo
    simpa [reorder_row, List.map_map, Function.comp] using this

/-! ## C9: protocol status aggregation -/

/-- C9: when `run_protocol_test` returns normally, the overall status is
`Passed` exactly when every request/response pair in the chain matched
(`statusList` is the source's list of per-pair `compare_response` outcomes,
each the conjunction of its status-code, content-type and body/result
checks); when any pair failed, the result is `Failed` with
`RESULTS_NOT_THE_SAME`. -/
theorem C9_protocol_status_aggregation {G : Type} (parse : Str → Except Str G)
    (isomorphic : G → G → Bool) (net : Str → Str) (endpoint : Str)
    (test : ProtoTest) (test_protocol newpath0 : Str) (r : ProtoRunResult)
    (h : run_protocol_test parse isomorphic net endpoint test test_protocol newpath0 =
      .ok r) :
    (r.result = .passed ↔ r.statusList.all id = true) ∧
    (r.result ≠ .passed → r.result = .failed ∧ r.error_type = .resultsNotTheSame) := by
  simp only [run_protocol_test] at h
  cases hp : protoLoop parse isomorphic net endpoint test
      (protocol_request_sections test_protocol) ([], [], [], [], newpath0) with
  | error e =>
    rw [hp] at h
    simp [Bind.bind, Except.bind] at h
  | ok st =>
    rw [hp] at h
    obtain ⟨reqs, resps, gots, stats, np⟩ := st
    simp only [Bind.bind, Except.bind, pure, Except.pure, Except.ok.injEq] at h
    subst h
    by_cases hall : stats.all id = true
    · simp [hall]
    · simp [hall]

/-- The concrete outcome of the C9 witness scenario: a one-request script
whose response matches. -/
def c9run_result : ProtoRunResult :=
  ⟨.passed, .empty,
    [("GET /x HTTP/1.1\x0d\nContent-Length: 0\x0d\nAuthorization: Bearer abc\x0d\n\x0d\n\x0d\n").data],
    [⟨[("200").data, ("200 ").data], [], none, false⟩],
    [("HTTP/1.1 200 OK\x0d\n\x0d\n").data], [true], []⟩

/-- C9 witness: the aggregation equivalence at a concrete matching
exchange. -/
theorem C9_witness :
    c9run_result.result = .passed ↔ c9run_result.statusList.all id = true :=
  (C9_protocol_status_aggregation (G := Unit)
    (fun _ => (.error [] : Except Str Unit)) (fun _ _ => true)
    (fun _ => ("HTTP/1.1 200 OK\x0d\n\x0d\n").data) (("endp").data)
    ⟨("ProtocolTest").data, []⟩
    (("#### Request\nGET /x HTTP/1.1\n\n#### Response\n200 response\n").data)
    [] c9run_result (by decide)).1

/-! ## C10: remove_once_found frame -/

/-- The inner scan drops at most one element of the working copy: its
normal result is a sublist of the scanned list. -/
theorem rofScan_sublist (item2 : PyJson) (cib : Bool)
    (aliases : List (Str × Str)) (nt : List Str) :
    ∀ (xs : List PyJson) (m m' : BMap) (ys : List PyJson),
    rofScan item2 cib aliases nt xs m = (m', .ok ys) → ys.Sublist xs := by
  intro xs
  induction xs with
  | nil =>
    intro m m' ys h
    simp only [rofScan, Prod.mk.injEq, Except.ok.injEq] at h
    rw [← h.2]
  | cons x xs ih =>
    intro m m' ys h
    simp only [rofScan] at h
    cases hj : json_elements_equal x item2 cib aliases nt m with
    | mk m1 r =>
      rw [hj] at h
      cases r with
      | error e => simp at h
      | ok b =>
        cases b with
        | true =>
          simp only [Prod.mk.injEq, Except.ok.injEq] at h
          rw [← h.2]
          exact List.sublist_cons_self x xs
        | false =>
          have h' : (match rofScan item2 cib aliases nt xs m1 with
              | (mz, Except.error e) => (mz, Except.error e)
              | (mz, Except.ok ys2) => (mz, Except.ok (x :: ys2))) =
              (m', Except.ok ys) := h
          cases hr : rofScan item2 cib aliases nt xs m1 with
          | mk m2 r2 =>
            rw [hr] at h'
            cases r2 with
            | error e => simp at h'
            | ok ys' =>
              simp only [Prod.mk.injEq, Except.ok.injEq] at h'
              rw [← h'.2]
              exact (ih m1 m2 ys' hr).cons₂ x

/-- C10: `remove_once_found` returns, besides the updated bnode
dictionary, a residual that is a subsequence of its first input in the
original order; the embedding's signature records that the bnode
dictionary is the only state the source threads (it copies `list1` and
never writes to either input list). -/
theorem C10_remove_once_found_frame :
    ∀ (l2 l1 : List PyJson) (cib : Bool) (aliases : List (Str × Str))
      (nt : List Str) (m m' : BMap) (res : List PyJson),
    remove_once_found l1 l2 cib aliases nt m = (m', .ok res) → res.Sublist l1 := by
  intro l2
  induction l2 with
  | nil =>
    intro l1 cib aliases nt m m' res h
    simp only [remove_once_found, rofGo, Prod.mk.injEq, Except.ok.injEq] at h
    rw [← h.2]
  | cons item2 rest ih =>
    intro l1 cib aliases nt m m' res h
    simp only [remove_once_found, rofGo] at h
    cases hs : rofScan item2 cib aliases nt l1 m with
    | mk m1 r =>
      rw [hs] at h
      cases r with
      | error e => simp at h
      | ok temp' =>
        have h1 := rofScan_sublist item2 cib aliases nt l1 m m1 temp' hs
        have h2 := ih temp' cib aliases nt m1 m' res h
        exact h2.trans h1

/-- C10 witness: removing one matched binding leaves the other, in order,
as a subsequence of the input. -/
theorem C10_witness :
    ([PyJson.obj [((("x").data), PyJson.str (("1").data))]]).Sublist
      [PyJson.obj [], PyJson.obj [((("x").data), PyJson.str (("1").data))]] :=
  C10_remove_once_found_frame [PyJson.obj []]
    [PyJson.obj [], PyJson.obj [((("x").data), PyJson.str (("1").data))]]
    false [] [] [] [] [PyJson.obj [((("x").data), PyJson.str (("1").data))]] (by rfl)

/-! ## C4: comparison-phase exceptions and the orchestrator -/

/-- The only exception `jsonLoads` raises is `JSONDecodeError`. -/
theorem jsonLoads_error (s : Str) (ex : PyExc) (h : jsonLoads s = .error ex) :
    ex = .jsonDecodeError := by
  simp only [jsonLoads] at h
  cases hv : jVal (s.length + 1) s with
  | none =>
    rw [hv] at h
    injection h with h
    exact h.symm
  | some p =>
    rw [hv] at h
    obtain ⟨v, rest⟩ := p
    by_cases hr : jSkipWs rest = []
    · simp [hr] at h
    · simp [hr] at h
      exact h.symm

/-- C4 counterexample: a single query test in the `srj` format whose
expected payload fails to parse as JSON makes the whole run abort with the
uncaught `JSONDecodeError` — the comparison-phase exception is not
recorded per test and propagates past `TestSuite.run`. -/
theorem C4_counterexample :
    TestSuite_run (G := Unit) (fun _ => (200, ("\x7b\x7d").data))
      (fun _ _ _ _ => .ok (.failed, .resultsNotTheSame))
      (fun _ => .error []) (fun _ _ => true) [] []
      [⟨true, [⟨("\x7b").data, ("srj").data⟩]⟩] [] = .error .jsonDecodeError := by
  decide

/-- C4 (amended): comparison-phase exceptions are *not* captured by the
orchestrator.  A JSON payload that fails to parse raises out of
`compare_json` through `evaluate_query` (which has no handler, first
conjunct) and out of `TestSuite.run`, whose only handler catches
`KeyboardInterrupt` (second conjunct, for a run whose single test is such
a test).  Only the Turtle comparator captures its parse failures
internally: the `ttl` branch of `evaluate_query` always returns normally,
with `compare_ttl`'s own status/error result (third conjunct). -/
theorem C4_exception_propagation (G : Type) (cmpXml : FormatComparator)
    (parse : Str → Except Str G) (isomorphic : G → G → Bool)
    (aliases : List (Str × Str)) (number_types : List Str) :
    (∀ (e q : Str) (ex : PyExc), jsonLoads e = .error ex →
      evaluate_query cmpXml parse isomorphic aliases number_types e q (("srj").data) =
        .error ex) ∧
    (∀ (t : QueryTest) (engine : QueryTest → ℕ × Str) (body : Str) (ex : PyExc),
      t.result_format = ("srj").data →
      engine t = (200, body) →
      jsonLoads t.result_file = .error ex →
      TestSuite_run engine cmpXml parse isomorphic aliases number_types
        [⟨true, [t]⟩] [] = .error .jsonDecodeError) ∧
    (∀ (e q : Str),
      evaluate_query cmpXml parse isomorphic aliases number_types e q (("ttl").data) =
        .ok (compare_ttl parse isomorphic e q).1) := by
  have hsrj : ∀ (e q : Str) (ex : PyExc), jsonLoads e = .error ex →
      evaluate_query cmpXml parse isomorphic aliases number_types e q (("srj").data) =
        .error ex := by
    intro e q ex hj
    simp only [evaluate_query, if_true]
    simp only [compare_json, hj, Bind.bind, Except.bind]
    rw [if_neg (by decide)]
  refine ⟨hsrj, ?_, ?_⟩
  · intro t engine body ex hfmt heng hj
    have hde : ex = .jsonDecodeError := jsonLoads_error _ _ hj
    subst hde
    have hone : run_one_query_test engine cmpXml parse isomorphic aliases number_types t =
        .error .jsonDecodeError := by
      simp only [run_one_query_test, heng, if_true]
      rw [hfmt]
      exact hsrj t.result_file body .jsonDecodeError hj
    simp only [TestSuite_run, run_query_tests]
    rw [if_neg (by simp)]
    simp only [List.mapM_cons, List.mapM_nil, hone, Bind.bind, Except.bind]
  · intro e q
    simp [evaluate_query, pure, Except.pure]

/-- C4 witness: the amended statement at a concrete unparsable payload. -/
theorem C4_witness :
    evaluate_query (G := Unit) (fun _ _ _ _ => .ok (.failed, .resultsNotTheSame))
      (fun _ => .error []) (fun _ _ => true) [] []
      (("\x7b").data) (("\x7b\x7d").data) (("srj").data) = .error .jsonDecodeError ∧
    TestSuite_run (G := Unit) (fun _ => (200, ("\x7b\x7d").data))
      (fun _ _ _ _ => .ok (.failed, .resultsNotTheSame))
      (fun _ => .error []) (fun _ _ => true) [] []
      [⟨true, [⟨("\x7b").data, ("srj").data⟩]⟩] [] = .error .jsonDecodeError := by
  have h := C4_exception_propagation Unit
    (fun _ _ _ _ => .ok (.failed, .resultsNotTheSame))
    (fun _ => .error []) (fun _ _ => true) [] []
  exact ⟨h.1 (("\x7b").data) (("\x7b\x7d").data) .jsonDecodeError (by rfl),
    h.2.1 ⟨("\x7b").data, ("srj").data⟩ (fun _ => (200, ("\x7b\x7d").data))
      (("\x7b\x7d").data) .jsonDecodeError rfl rfl (by rfl)⟩

/-! ## C8: chunked round trip -/

/-- Value of a digit string continued from accumulator `a` (proof-side
companion of `hexVal`). -/
def hval (a : ℕ) (s : Str) : ℕ :=
  s.foldl (fun x c => x * 16 + (hexDigVal c).getD 0) a

/-- Number of hexadecimal digits emitted by `natToHexGo` (same fuel). -/
def hcount : ℕ → ℕ → ℕ
  | 0, _ => 0
  | _ + 1, 0 => 0
  | fuel + 1, n + 1 => hcount fuel ((n + 1) / 16) + 1

/-- Each emitted digit character evaluates back to the digit. -/
theorem hexDigVal_hexDigitChar (r : ℕ) (h : r < 16) :
    hexDigVal (hexDigitChar r) = some r := by
  interval_cases r <;> decide

/-- `foldlM` over hex digits is the pure fold. -/
theorem foldlM_hexDigits (s : Str) (h : ∀ c ∈ s, (hexDigVal c).isSome) :
    ∀ a : ℕ,
      s.foldlM (fun acc c => (hexDigVal c).map (fun d => acc * 16 + d)) a =
        some (hval a s) := by
  induction s with
  | nil => intro a; rfl
  | cons c cs ih =>
    intro a
    obtain ⟨d, hd⟩ := Option.isSome_iff_exists.mp (h c (by simp))
    have hcs : ∀ x ∈ cs, (hexDigVal x).isSome := fun x hx => h x (by simp [hx])
    simp only [List.foldlM_cons, hd, Option.map_some']
    show List.foldlM (fun acc c => (hexDigVal c).map (fun d => acc * 16 + d))
      (a * 16 + d) cs = _
    rw [ih hcs (a * 16 + d)]
    simp [hval, List.foldl_cons, hd]

/-- The two key facts about the digit loop: the characters it prepends are
hexadecimal digits, and reading them back continues the accumulator value
by `n`. -/
theorem natToHexGo_spec : ∀ (fuel n : ℕ) (acc : Str), n ≤ fuel →
    (∀ c ∈ natToHexGo n fuel acc, c ∈ acc ∨ (hexDigVal c).isSome) ∧
    (∀ a : ℕ, hval a (natToHexGo n fuel acc) =
      hval (a * 16 ^ hcount fuel n + n) acc) := by
  intro fuel
  induction fuel with
  | zero =>
    intro n acc hn
    interval_cases n
    exact ⟨fun c hc => Or.inl hc, fun a => by simp [natToHexGo, hcount]⟩
  | succ f ih =>
    intro n acc hn
    match n with
    | 0 =>
      exact ⟨fun c hc => Or.inl hc, fun a => by simp [natToHexGo, hcount]⟩
    | m + 1 =>
      have hdiv : (m + 1) / 16 ≤ f := by
        have h1 : (m + 1) / 16 < m + 1 := Nat.div_lt_self (by omega) (by omega)
        omega
      have hrec := ih ((m + 1) / 16) (hexDigitChar ((m + 1) % 16) :: acc) hdiv
      have hd : hexDigVal (hexDigitChar ((m + 1) % 16)) = some ((m + 1) % 16) :=
        hexDigVal_hexDigitChar _ (Nat.mod_lt _ (by omega))
      constructor
      · intro c hc
        rcases hrec.1 c hc with hcm | hcm
        · rcases List.mem_cons.mp hcm with hcm | hcm
          · subst hcm
            exact Or.inr (by simp [hd])
          · exact Or.inl hcm
        · exact Or.inr hcm
      · intro a
        show hval a (natToHexGo ((m + 1) / 16) f (hexDigitChar ((m + 1) % 16) :: acc)) = _
        rw [hrec.2 a]
        show hval ((a * 16 ^ hcount f ((m + 1) / 16) + (m + 1) / 16) * 16 +
          (hexDigVal (hexDigitChar ((m + 1) % 16))).getD 0) acc = _
        rw [hd]
        show hval ((a * 16 ^ hcount f ((m + 1) / 16) + (m + 1) / 16) * 16 + (m + 1) % 16) acc = _
        have harith : (a * 16 ^ hcount f ((m + 1) / 16) + (m + 1) / 16) * 16 + (m + 1) % 16 =
            a * 16 ^ hcount (f + 1) (m + 1) + (m + 1) := by
          have hmod := Nat.div_add_mod (m + 1) 16
          show _ = a * 16 ^ (hcount f ((m + 1) / 16) + 1) + (m + 1)
          rw [pow_succ]
          ring_nf
          omega
        rw [harith]

/-- The digit loop only grows the accumulator. -/
theorem natToHexGo_length : ∀ (fuel n : ℕ) (acc : Str),
    acc.length ≤ (natToHexGo n fuel acc).length := by
  intro fuel
  induction fuel with
  | zero => intro n acc; cases n <;> simp [natToHexGo]
  | succ f ih =>
    intro n acc
    cases n with
    | zero => simp [natToHexGo]
    | succ m =>
      calc acc.length ≤ (hexDigitChar ((m + 1) % 16) :: acc).length := by simp
        _ ≤ _ := ih _ _

/-- Decoding the rendered length gives back the length. -/
theorem hexVal_natToHex (n : ℕ) : hexVal (natToHex n) = some n := by
  by_cases h0 : n = 0
  · subst h0; decide
  · have hspec := natToHexGo_spec n n [] (le_refl n)
    have hne : natToHexGo n n [] ≠ [] := by
      intro hc
      have := natToHexGo_length n n []
      match n, h0 with
      | m + 1, _ =>
        have h1 : natToHexGo (m + 1) (m + 1) [] =
            natToHexGo ((m + 1) / 16) m [hexDigitChar ((m + 1) % 16)] := rfl
        rw [h1] at hc
        have h2 := natToHexGo_length m ((m + 1) / 16) [hexDigitChar ((m + 1) % 16)]
        rw [hc] at h2
        simp at h2
    have hdig : ∀ c ∈ natToHexGo n n [], (hexDigVal c).isSome := by
      intro c hc
      rcases hspec.1 c hc with hcm | hcm
      · exact absurd hcm (by simp)
      · exact hcm
    have hv : hval 0 (natToHexGo n n []) = n := by
      rw [hspec.2 0]
      simp [hval]
    simp only [natToHex, if_neg h0, hexVal, if_neg hne]
    rw [foldlM_hexDigits _ hdig 0, hv]

/-- The rendered length contains no carriage return. -/
theorem natToHex_no_cr (n : ℕ) (c : Char) (hc : c ∈ natToHex n) : c ≠ '\x0d' := by
  intro hcr
  subst hcr
  by_cases h0 : n = 0
  · subst h0; simp [natToHex] at hc
  · simp only [natToHex, if_neg h0] at hc
    have hspec := natToHexGo_spec n n [] (le_refl n)
    rcases hspec.1 _ hc with hcm | hcm
    · simp at hcm
    · simp [hexDigVal] at hcm

/-- `splitCRLF` splits exactly at the CRLF following a CR-free prefix. -/
theorem splitCRLF_append (a b : Str) (ha : ∀ c ∈ a, c ≠ '\x0d') :
    splitCRLF (a ++ '\x0d' :: '\n' :: b) = some (a, b) := by
  induction a with
  | nil => simp [splitCRLF]
  | cons c cs ih =>
    have hc : c ≠ '\x0d' := ha c (by simp)
    have hcs : ∀ x ∈ cs, x ≠ '\x0d' := fun x hx => ha x (by simp [hx])
    simp only [List.cons_append, splitCRLF]
    rw [if_neg (by rintro ⟨h1, -⟩; exact hc h1)]
    show Option.map (fun p => (c :: p.1, p.2)) (splitCRLF (cs ++ '\x0d' :: '\n' :: b)) = _
    rw [ih hcs]
    rfl

/-- The encoded stream is at least as long as the chunk count. -/
theorem chunkEncode_length_ge (chunks : List Str) (trailing : Str) :
    chunks.length ≤ (chunkEncode chunks ++ trailing).length := by
  induction chunks with
  | nil => simp
  | cons c cs ih =>
    have h1 : chunkEncode (c :: cs) ++ trailing =
        encodeChunk c ++ (chunkEncode cs ++ trailing) := by
      simp [chunkEncode, encodeChunk, List.flatten_cons]
    rw [h1]
    simp only [List.length_append, List.length_cons]
    have h2 : 1 ≤ (encodeChunk c).length := by
      simp [encodeChunk]
      omega
    have ha : (chunkEncode cs ++ trailing).length =
        (chunkEncode cs).length + trailing.length := List.length_append _ _
    omega

/-- The decoding loop inverts the encoding, given enough fuel for one
iteration per chunk plus the terminating zero chunk. -/
theorem parse_chunked_body_go_enc :
    ∀ (chunks : List Str) (trailing : Str) (fuel : ℕ),
    (∀ c ∈ chunks, c ≠ []) → chunks.length + 1 ≤ fuel →
    parse_chunked_body_go fuel (chunkEncode chunks ++ trailing) =
      .ok chunks.flatten := by
  intro chunks
  induction chunks with
  | nil =>
    intro trailing fuel _ hfuel
    match fuel, hfuel with
    | f + 1, _ =>
      show parse_chunked_body_go (f + 1) ('0' :: '\x0d' :: '\n' :: trailing) = .ok []
      simp [parse_chunked_body_go, splitCRLF, hexVal, hexDigVal]
  | cons c cs ih =>
    intro trailing fuel hne hfuel
    match fuel, hfuel with
    | f + 1, hf =>
      have henc : chunkEncode (c :: cs) ++ trailing =
          natToHex c.length ++ '\x0d' :: '\n' ::
            (c ++ '\x0d' :: '\n' :: (chunkEncode cs ++ trailing)) := by
        simp [chunkEncode, encodeChunk, List.flatten_cons]
      rw [henc]
      have hsplit := splitCRLF_append (natToHex c.length)
        (c ++ '\x0d' :: '\n' :: (chunkEncode cs ++ trailing))
        (fun x hx => natToHex_no_cr _ x hx)
      have hnonempty : natToHex c.length ++ '\x0d' :: '\n' ::
          (c ++ '\x0d' :: '\n' :: (chunkEncode cs ++ trailing)) ≠ [] := by
        intro hcon
        have := congrArg List.length hcon
        simp at this
      obtain ⟨k, hk⟩ : ∃ k, c.length = k + 1 := by
        cases hcc : c with
        | nil => exact absurd hcc (hne c (by simp))
        | cons a as => exact ⟨as.length, by simp⟩
      rw [hk] at hsplit hnonempty
      simp only [hk, parse_chunked_body_go, if_neg hnonempty, hsplit, hexVal_natToHex]
      have htake : (c ++ '\x0d' :: '\n' :: (chunkEncode cs ++ trailing)).take (k + 1) = c := by
        rw [← hk]
        simp
      have hdrop : (c ++ '\x0d' :: '\n' :: (chunkEncode cs ++ trailing)).drop (k + 1 + 2) =
          chunkEncode cs ++ trailing := by
        have hassoc : c ++ '\x0d' :: '\n' :: (chunkEncode cs ++ trailing) =
            (c ++ ['\x0d', '\n']) ++ (chunkEncode cs ++ trailing) := by simp
        rw [hassoc]
        have hlen : (c ++ (['\x0d', '\n'] : Str)).length = k + 1 + 2 := by
          simp [hk]
        rw [← hlen]
        exact List.drop_left _ _
      rw [htake, hdrop]
      rw [ih trailing f (fun x hx => hne x (by simp [hx])) (by
        simp only [List.length_cons] at hf
        omega)]
      rfl

/-- C8: chunked decoding is a left inverse of chunked encoding — for every
chunking of a string into non-empty chunks, decoding the valid encoding
returns the original string, and the terminating zero-size chunk stops
decoding even when arbitrary further bytes follow it. -/
theorem C8_chunked_roundtrip (chunks : List Str) (trailing : Str)
    (hne : ∀ c ∈ chunks, c ≠ []) :
    parse_chunked_body (chunkEncode chunks ++ trailing) = .ok chunks.flatten := by
  apply parse_chunked_body_go_enc chunks trailing _ hne
  have := chunkEncode_length_ge chunks trailing
  omega

/-- C8 witness: a concrete two-chunk encoding with trailing garbage decodes
to the original string. -/
theorem C8_witness :
    parse_chunked_body (chunkEncode [("hel").data, ("lo").data] ++ ("junk").data) =
      .ok (("hello").data) :=
  C8_chunked_roundtrip [("hel").data, ("lo").data] (("junk").data) (by decide)

/-- C6 witness: the amended statement applied at the claim's example
headers. -/
theorem C6_witness :
    reorder_columns_to_expected
        [[("s").data, ("p").data, ("o").data], [("1").data, ("2").data, ("3").data]]
        [[("o").data, ("p").data, ("s").data], [("3").data, ("2").data, ("1").data]] =
      [[("s").data, ("p").data, ("o").data], [("1").data, ("2").data, ("3").data]] := by
  have h := C6_header_permutation
    [("s").data, ("p").data, ("o").data] [("o").data, ("p").data, ("s").data]
    [[("1").data, ("2").data, ("3").data]] [[("3").data, ("2").data, ("1").data]]
    [2, 1, 0] (by decide) (by decide)
  rw [h.1]
  decide

/-! ## C1: residual symmetry of greedy bag reconciliation -/

/-- First bag of the C1 counterexample: three rows whose second cell is a
blank-node label (`_c`, `_d`, `_c`). -/
def c1A : List Row :=
  [[("1").data, ("_c").data], [("2").data, ("_d").data], [("3").data, ("_c").data]]

/-- Second bag of the C1 counterexample: the same keys, all sharing the
blank-node label `_y`. -/
def c1B : List Row :=
  [[("2").data, ("_y").data], [("1").data, ("_y").data], [("3").data, ("_y").data]]

/-- The effect of `compare_array` on either copy when every cross-bag row
comparison is literal equality: scan the iterated rows and erase each one
that occurs in `expected` once. -/
def eraseMatched (expected : List Row) : List Row → List Row → List Row
  | [], rc => rc
  | r :: rest, rc =>
    eraseMatched expected rest (if r ∈ expected then rc.erase r else rc)

/-- Bags of the C1 witness: plain rows with no blank nodes and no two
numerically equal cells. -/
def c1wA : List Row := [[("1").data], [("2").data]]

/-- Second bag of the C1 witness. -/
def c1wB : List Row := [[("2").data], [("3").data]]

/-- C1 counterexample: with shared blank-node cells the two orientations of
`compare_array` leave residuals of different sizes — (2, 2) one way and
(1, 1) the other — because the matching threads a stateful blank-node
dictionary whose growth depends on the scan order. -/
theorem C1_counterexample :
    (compare_array c1A c1B c1B c1A false [] []).map
        (fun p => (p.1.length, p.2.1.length)) = .ok (2, 2) ∧
    (compare_array c1B c1A c1A c1B false [] []).map
        (fun p => (p.1.length, p.2.1.length)) = .ok (1, 1) := by
  decide

/-- When every probe of `row1` against the scanned list is literal equality
leaving the dictionary unchanged, `array_find_match` returns `row1` itself
exactly when it occurs in the list. -/
theorem array_find_match_eq (row1 : Row) (uc : Bool) (al : List (Str × Str)) :
    ∀ (expected : List Row) (m : BMap),
    (∀ r2 ∈ expected, compare_rows row1 r2 uc al m = (decide (row1 = r2), m)) →
    array_find_match row1 expected uc al m =
      (if row1 ∈ expected then some row1 else none, m) := by
  intro expected
  induction expected with
  | nil => intro m _; simp [array_find_match]
  | cons r2 rest ih =>
    intro m h
    have h2 := h r2 (by simp)
    by_cases he : row1 = r2
    · subst he
      have h2' : compare_rows row1 row1 uc al m = (true, m) := by simpa using h2
      simp [array_find_match, h2']
    · have h2' : compare_rows row1 r2 uc al m = (false, m) := by simpa [he] using h2
      have hrest := ih m (fun r hr => h r (List.mem_cons_of_mem _ hr))
      simp [array_find_match, h2', hrest, he]

/-- `list.remove` on a list containing the value is `List.erase`. -/
theorem listRemove_mem (v : Row) :
    ∀ l : List Row, v ∈ l → listRemove l v = .ok (l.erase v) := by
  intro l
  induction l with
  | nil => intro hv; simp at hv
  | cons x xs ih =>
    intro hv
    by_cases hx : x = v
    · subst hx
      simp [listRemove, List.erase_cons_head]
    · have hv' : v ∈ xs := by
        rcases List.mem_cons.mp hv with h | h
        · exact absurd h.symm hx
        · exact h
      simp [listRemove, hx, List.erase_cons, ih hv', Except.map]

/-- Under literal-equality row comparison, `compare_array` succeeds and
erases from both copies exactly the scanned rows that occur in `expected`,
leaving the dictionary unchanged. -/
theorem compare_array_eq (expected : List Row) (uc : Bool) (al : List (Str × Str)) :
    ∀ (result rc ec : List Row) (m : BMap),
    (∀ r1 ∈ result, ∀ r2 ∈ expected, ∀ m' : BMap,
      compare_rows r1 r2 uc al m' = (decide (r1 = r2), m')) →
    result.Nodup → List.Sublist result rc →
    (∀ r ∈ result, r ∈ expected → r ∈ ec) →
    compare_array expected result rc ec uc al m =
      .ok (eraseMatched expected result rc, eraseMatched expected result ec, m) := by
  intro result
  induction result with
  | nil => intro rc ec m _ _ _ _; rfl
  | cons row1 rest ih =>
    intro rc ec m hrows hnd hsub hmem
    have hfind := array_find_match_eq row1 uc al expected m
      (fun r2 hr2 => hrows row1 (by simp) r2 hr2 m)
    by_cases hexp : row1 ∈ expected
    · have hrc : row1 ∈ rc := hsub.subset (by simp)
      have hec : row1 ∈ ec := hmem row1 (by simp) hexp
      have hrec := ih (rc.erase row1) (ec.erase row1) m
        (fun r1 h1 r2 h2 m' => hrows r1 (by simp [h1]) r2 h2 m')
        (List.Nodup.of_cons hnd)
        (by
          have h := hsub.erase row1
          rwa [List.erase_cons_head] at h)
        (fun r hr hrex => by
          have hne : r ≠ row1 := by
            intro hcon; subst hcon
            exact (List.nodup_cons.mp hnd).1 hr
          exact (List.mem_erase_of_ne hne).mpr (hmem r (by simp [hr]) hrex))
      have hstep : compare_array expected (row1 :: rest) rc ec uc al m =
          (do
            let rcn ← listRemove rc row1
            let ecn ← listRemove ec row1
            compare_array expected rest rcn ecn uc al m) := by
        simp only [compare_array, hfind, hexp, if_true]
      rw [hstep]
      simp only [listRemove_mem row1 rc hrc, listRemove_mem row1 ec hec,
        Bind.bind, Except.bind]
      rw [hrec]
      simp [eraseMatched, hexp]
    · have hrec := ih rc ec m
        (fun r1 h1 r2 h2 m' => hrows r1 (by simp [h1]) r2 h2 m')
        (List.Nodup.of_cons hnd)
        (List.sublist_of_cons_sublist hsub)
        (fun r hr hrex => hmem r (by simp [hr]) hrex)
      have hstep : compare_array expected (row1 :: rest) rc ec uc al m =
          compare_array expected rest rc ec uc al m := by
        simp only [compare_array, hfind, hexp, if_false]
      rw [hstep, hrec]
      simp [eraseMatched, hexp]

/-- `eraseMatched` on a duplicate-free copy is a filter: a row survives
unless it is both scanned and expected. -/
theorem eraseMatched_filter (expected : List Row) :
    ∀ (iter rc : List Row), rc.Nodup →
    eraseMatched expected iter rc =
      rc.filter (fun r => decide (¬ (r ∈ iter ∧ r ∈ expected))) := by
  intro iter
  induction iter with
  | nil =>
    intro rc _
    simp [eraseMatched]
  | cons a rest ih =>
    intro rc hnd
    by_cases ha : a ∈ expected
    · have h1 : eraseMatched expected (a :: rest) rc =
          eraseMatched expected rest (rc.erase a) := by
        simp [eraseMatched, ha]
      rw [h1, ih (rc.erase a) (hnd.erase a)]
      rw [hnd.erase_eq_filter a, List.filter_filter]
      apply List.filter_congr
      intro r hr
      by_cases hra : r = a
      · subst hra; simp [ha]
      · simp [hra, List.mem_cons]
    · have h1 : eraseMatched expected (a :: rest) rc =
          eraseMatched expected rest rc := by
        simp [eraseMatched, ha]
      rw [h1, ih rc hnd]
      apply List.filter_congr
      intro r hr
      by_cases hra : r = a
      · subst hra; simp [ha]
      · simp [hra, List.mem_cons]

/-- C1: residual symmetry of `compare_array` holds in the stateless
fragment — when both bags are duplicate-free and every cross-bag row
comparison is literal row equality leaving the blank-node dictionary
unchanged (no blank nodes, numeric coincidences or alias hits across the
bags), both orientations succeed and leave the same two residuals, the
rows of each bag missing from the other, so the residual sizes agree.  (The
unrestricted claim is refuted by `C1_counterexample`: the shared blank-node
dictionary makes the match relation scan-order-dependent.) -/
theorem C1_residual_symmetry (A B : List Row) (uc : Bool) (al : List (Str × Str)) (m : BMap)
    (hA : A.Nodup) (hB : B.Nodup)
    (hrows : ∀ r1 r2, (r1 ∈ A ∨ r1 ∈ B) → (r2 ∈ A ∨ r2 ∈ B) →
      ∀ m' : BMap, compare_rows r1 r2 uc al m' = (decide (r1 = r2), m')) :
    compare_array A B B A uc al m =
      .ok (B.filter (fun r => decide (r ∉ A)), A.filter (fun r => decide (r ∉ B)), m) ∧
    compare_array B A A B uc al m =
      .ok (A.filter (fun r => decide (r ∉ B)), B.filter (fun r => decide (r ∉ A)), m) := by
  constructor
  · rw [compare_array_eq A uc al B B A m
      (fun r1 h1 r2 h2 m' => hrows r1 r2 (Or.inr h1) (Or.inl h2) m')
      hB (List.Sublist.refl B) (fun r _ hr => hr)]
    rw [eraseMatched_filter A B B hB, eraseMatched_filter A B A hA]
    have e1 : B.filter (fun r => decide (¬ (r ∈ B ∧ r ∈ A))) =
        B.filter (fun r => decide (r ∉ A)) := by
      apply List.filter_congr
      intro r hr
      simp [hr]
    have e2 : A.filter (fun r => decide (¬ (r ∈ B ∧ r ∈ A))) =
        A.filter (fun r => decide (r ∉ B)) := by
      apply List.filter_congr
      intro r hr
      simp [hr, and_comm]
    rw [e1, e2]
  · rw [compare_array_eq B uc al A A B m
      (fun r1 h1 r2 h2 m' => hrows r1 r2 (Or.inl h1) (Or.inr h2) m')
      hA (List.Sublist.refl A) (fun r _ hr => hr)]
    rw [eraseMatched_filter B A A hA, eraseMatched_filter B A B hB]
    have e1 : A.filter (fun r => decide (¬ (r ∈ A ∧ r ∈ B))) =
        A.filter (fun r => decide (r ∉ B)) := by
      apply List.filter_congr
      intro r hr
      simp [hr]
    have e2 : B.filter (fun r => decide (¬ (r ∈ A ∧ r ∈ B))) =
        B.filter (fun r => decide (r ∉ A)) := by
      apply List.filter_congr
      intro r hr
      simp [hr, and_comm]
    rw [e1, e2]

/-- C1 witness: the amended statement applied to two concrete bnode-free
bags sharing one row; both orientations leave the residuals `[[3]]` and
`[[1]]`. -/
theorem C1_witness :
    compare_array c1wA c1wB c1wB c1wA false [] [] =
      .ok (c1wB.filter (fun r => decide (r ∉ c1wA)),
        c1wA.filter (fun r => decide (r ∉ c1wB)), []) ∧
    compare_array c1wB c1wA c1wA c1wB false [] [] =
      .ok (c1wA.filter (fun r => decide (r ∉ c1wB)),
        c1wB.filter (fun r => decide (r ∉ c1wA)), []) :=
  C1_residual_symmetry c1wA c1wB false [] [] (by decide) (by decide)
    (fun r1 r2 h1 h2 m' => by
      rcases h1 with h1 | h1 <;> rcases h2 with h2 | h2 <;>
        simp only [c1wA, c1wB, List.mem_cons, List.not_mem_nil, or_false] at h1 h2 <;>
        rcases h1 with rfl | rfl <;> rcases h2 with rfl | rfl <;> rfl)

end SparqlConf
